import Mathlib

/-!
# claude2api: session and proxy pool manager

A shallow embedding of `config/config.go`, `config/proxy.go` and
`middleware/auth.go`, followed by the properties proved about it.

Go strings are byte sequences, so a string is a list of `UInt8`.  Mutexes
serialise the calls of a method; a method is therefore embedded as a function
from the state before the call to the result and the state after it.
-/

namespace Claude2api

/-! ## Data model -/

/-- A Go `string`: a finite sequence of bytes. -/
abbrev GoString := List UInt8

/-- The bytes of a string literal (its UTF-8 encoding, as in a Go source file). -/
def str (s : String) : GoString := s.toUTF8.data.toList

/-- Go `type SessionInfo struct`. -/
structure SessionInfo where
  SessionKey : GoString
  OrgID : GoString
deriving DecidableEq, Repr

/-- Go `type SessionRagen struct`; the mutex carries no data. -/
structure SessionRagen where
  Index : Int
deriving DecidableEq, Repr

/-- Go `type Config struct`; the read-write mutex carries no data. -/
structure Config where
  Sessions : List SessionInfo
  Address : GoString
  APIKey : GoString
  Proxies : List GoString
  ChatDelete : Bool
  MaxChatHistoryLength : Int
  RetryCount : Int
  NoRolePrefix : Bool
  PromptDisableArtifacts : Bool
  EnableMirrorApi : Bool
  MirrorApiPrefix : GoString
deriving DecidableEq, Repr

/-! ## Session rotator (`config.go`) -/

/-- `func (sr *SessionRagen) NextIndex() int`, reading the session list of the
global `ConfigInstance`.  The result is `none` when Go panics (integer division
by zero, for an empty session list); otherwise it is the returned index and the
rotator after the call.  Go's `%` truncates towards zero, which is `Int.tmod`.
The sum `index + 1` is taken in the integers: for a cursor below the length of
a slice it cannot exceed the largest `int`. -/
def NextIndex (ConfigInstance : Config) (sr : SessionRagen) : Option (Int × SessionRagen) :=
  let index := sr.Index
  if ConfigInstance.Sessions.length = 0 then none
  else some (index, { Index := Int.tmod (index + 1) (ConfigInstance.Sessions.length : Int) })

/-- The values returned by `k` consecutive calls of `NextIndex`, in call order,
and the rotator after the last call; `none` if a call panics. -/
def callsNextIndex (ConfigInstance : Config) : Nat → SessionRagen → Option (List Int × SessionRagen)
  | 0, sr => some ([], sr)
  | k + 1, sr =>
    match NextIndex ConfigInstance sr with
    | none => none
    | some (i, sr1) =>
      match callsNextIndex ConfigInstance k sr1 with
      | none => none
      | some (rest, sr2) => some (i :: rest, sr2)

/-! ## Library functions on strings (Go `strings`) -/

/-- Go `strings.HasPrefix`: `len(s) >= len(prefix) && s[:len(prefix)] == prefix`. -/
def HasPrefix (s pre : GoString) : Bool :=
  decide (pre.length ≤ s.length) && (s.take pre.length == pre)

/-- Go `strings.TrimPrefix`: `s[len(prefix):]` if `s` has the prefix, else `s`. -/
def TrimPrefix (s pre : GoString) : GoString :=
  if HasPrefix s pre then s.drop pre.length else s

/-- Go `strings.Contains`: `substr` occurs in `s` at some position, that is, it
is a prefix of `s` or it occurs in `s` without its first byte. -/
def Contains : GoString → GoString → Bool
  | [], substr => HasPrefix [] substr
  | c :: rest, substr => HasPrefix (c :: rest) substr || Contains rest substr

/-- Go `strings.Split(s, sep)` for a separator of one byte, which is how the
source calls it (`","` and `":"`): the pieces of `s` between the separators,
in order; a string without separator is its only piece. -/
def Split (s : GoString) (sep : UInt8) : List GoString :=
  match s with
  | [] => [[]]
  | c :: rest =>
    if c = sep then [] :: Split rest sep
    else
      match Split rest sep with
      | [] => [[c]]
      | piece :: pieces => (c :: piece) :: pieces

/-- Go `strings.Join(elems, sep)` for a separator of one byte. -/
def Join (elems : List GoString) (sep : UInt8) : GoString :=
  match elems with
  | [] => []
  | [e] => e
  | e :: rest => e ++ sep :: Join rest sep

/-- The byte `,`. -/
def comma : UInt8 := 44

/-- The byte `:`. -/
def colon : UInt8 := 58

/-! ## Credential store (`config/config.go`) -/

/-- The body of the loop of `parseSessionEnv` for a non-empty `pair`: the
session built from `parts := strings.Split(pair, ":")`.  `parts[0]` exists
because `Split` returns at least one piece. -/
def sessionOfPair (pair : GoString) : SessionInfo :=
  let parts := Split pair colon
  let session : SessionInfo := { SessionKey := parts.getD 0 [], OrgID := [] }
  if parts.length > 1 then { session with OrgID := parts.getD 1 [] }
  else if parts.length = 1 then { session with OrgID := [] }
  else session

/-- `func parseSessionEnv(envValue string) (int, []SessionInfo)`.  The loop
state is the pair of `retryCount` and `sessions`. -/
def parseSessionEnv (envValue : GoString) : Int × List SessionInfo :=
  if envValue = [] then (0, [])
  else
    let sessionPairs := Split envValue comma
    let loop := sessionPairs.foldl
      (fun (st : Int × List SessionInfo) pair =>
        if pair = [] then (st.1 - 1, st.2)
        else (st.1, st.2 ++ [sessionOfPair pair]))
      ((sessionPairs.length : Int), [])
    let retryCount := loop.1
    let sessions := loop.2
    (if retryCount > 5 then 5 else retryCount, sessions)

/-- The non-empty comma-separated entries of a session specification. -/
def entries (s : GoString) : List GoString :=
  (Split s comma).filter (fun e => decide (e ≠ []))

/-- The text of an entry before its first `:` (the whole entry if it has none). -/
def beforeColon (entry : GoString) : GoString :=
  entry.takeWhile (fun b => decide (b ≠ colon))

/-- The text of an entry after its first `:` (empty if it has none). -/
def afterColon (entry : GoString) : GoString :=
  (entry.dropWhile (fun b => decide (b ≠ colon))).drop 1

/-- The session of an entry when the organization identifier is read as all the
text after the first `:`. -/
def sessionUpToEnd (entry : GoString) : SessionInfo :=
  { SessionKey := beforeColon entry, OrgID := afterColon entry }

/-- The session of an entry when the organization identifier is read as the
text after the first `:` up to the next `:` or the end of the entry. -/
def sessionUpToColon (entry : GoString) : SessionInfo :=
  { SessionKey := beforeColon entry, OrgID := beforeColon (afterColon entry) }

/-- The error `fmt.Errorf("invalid session index: %d", idx)`. -/
inductive SessionError where
  | invalidSessionIndex (idx : Int)
deriving DecidableEq, Repr

/-- `func (c *Config) GetSessionForModel(idx int) (SessionInfo, error)`: the two
returned values (`none` for the second is the `nil` error) and the
configuration after the call.  The first component is `none` if the indexing
`c.Sessions[idx]` panics. -/
def GetSessionForModel (c : Config) (idx : Int) :
    Option (SessionInfo × Option SessionError) × Config :=
  if c.Sessions.length = 0 ∨ idx < 0 ∨ idx ≥ (c.Sessions.length : Int) then
    (some ({ SessionKey := [], OrgID := [] }, some (SessionError.invalidSessionIndex idx)), c)
  else
    match c.Sessions.get? idx.toNat with
    | some session => (some (session, none), c)
    | none => (none, c)

/-- The loop of `SetSessionOrgID` over the sessions from the front: at the
first session whose key is `sessionKey` it stores `orgID` and returns. -/
def setOrgIDLoop (sessionKey orgID : GoString) : List SessionInfo → List SessionInfo
  | [] => []
  | session :: rest =>
    if session.SessionKey = sessionKey then { session with OrgID := orgID } :: rest
    else session :: setOrgIDLoop sessionKey orgID rest

/-- `func (c *Config) SetSessionOrgID(sessionKey, orgID string)`: the
configuration after the call. -/
def SetSessionOrgID (c : Config) (sessionKey orgID : GoString) : Config :=
  { c with Sessions := setOrgIDLoop sessionKey orgID c.Sessions }

/-- A configuration with the given sessions, as the environment loader builds
it when only `SESSIONS` is set. -/
def poolConfig (sessions : List SessionInfo) : Config :=
  { Sessions := sessions, Address := str "0.0.0.0:8080", APIKey := [], Proxies := [],
    ChatDelete := true, MaxChatHistoryLength := 10000,
    RetryCount := min 5 (sessions.length : Int), NoRolePrefix := false,
    PromptDisableArtifacts := false, EnableMirrorApi := false, MirrorApiPrefix := [] }

/-- Three sessions, the second with an organization identifier. -/
def threeSessions : List SessionInfo :=
  [⟨str "sk-one", []⟩, ⟨str "sk-two", str "org-2"⟩, ⟨str "sk-three", []⟩]

/-- The closure that builds `Proxies` in `loadConfigFromEnv`: the entries of
`PROXIES` between commas, trimmed, without the empty ones.  `TrimSpace` is
`strings.TrimSpace`. -/
def proxiesFromEnv (TrimSpace : GoString → GoString) (value : GoString) : List GoString :=
  (Split value comma).foldl
    (fun out p =>
      let p := TrimSpace p
      if p ≠ [] then out ++ [p] else out)
    []

/-- `func loadConfigFromEnv() *Config`.  `Getenv` is `os.Getenv` (the empty
string for a variable that is not set), `Atoi` is `strconv.Atoi` and
`TrimSpace` is `strings.TrimSpace`. -/
def loadConfigFromEnv (Getenv : GoString → GoString) (Atoi : GoString → Except GoString Int)
    (TrimSpace : GoString → GoString) : Config :=
  let maxChatHistoryLength :=
    match Atoi (Getenv (str "MAX_CHAT_HISTORY_LENGTH")) with
    | Except.ok n => n
    | Except.error _ => 10000
  let parsed := parseSessionEnv (Getenv (str "SESSIONS"))
  let retryCount := parsed.1
  let sessions := parsed.2
  let config : Config :=
    { Sessions := sessions
      Address := Getenv (str "ADDRESS")
      APIKey := Getenv (str "APIKEY")
      Proxies := proxiesFromEnv TrimSpace (Getenv (str "PROXIES"))
      ChatDelete := decide (Getenv (str "CHAT_DELETE") ≠ str "false")
      MaxChatHistoryLength := maxChatHistoryLength
      RetryCount := retryCount
      NoRolePrefix := decide (Getenv (str "NO_ROLE_PREFIX") = str "true")
      PromptDisableArtifacts := decide (Getenv (str "PROMPT_DISABLE_ARTIFACTS") = str "true")
      EnableMirrorApi := decide (Getenv (str "ENABLE_MIRROR_API") = str "true")
      MirrorApiPrefix := Getenv (str "MIRROR_API_PREFIX") }
  if config.Address = [] then { config with Address := str "0.0.0.0:8080" } else config

/-- `func loadConfigFromYAML(configPath string) (*Config, error)`.  `ReadFile`
is `os.ReadFile`; `Unmarshal` is `yaml.Unmarshal` into a zero `Config`, which
fills every field that has a key in the document (`sessions`, `retryCount`,
...) and leaves the others at their zero value. -/
def loadConfigFromYAML (ReadFile : GoString → Except GoString GoString)
    (Unmarshal : GoString → Except GoString Config) (configPath : GoString) :
    Except GoString Config :=
  match ReadFile configPath with
  | Except.error err => Except.error (str "failed to read config file: " ++ err)
  | Except.ok data =>
    match Unmarshal data with
    | Except.error err => Except.error (str "failed to parse config file: " ++ err)
    | Except.ok config =>
      if config.Address = [] then Except.ok { config with Address := str "0.0.0.0:8080" }
      else Except.ok config

/-- `func LoadConfig() *Config`.  `configFile` is the result of
`configFileExists()`: the path of `config.yaml` if there is one. -/
def LoadConfig (configFile : Option GoString) (ReadFile : GoString → Except GoString GoString)
    (Unmarshal : GoString → Except GoString Config) (Getenv : GoString → GoString)
    (Atoi : GoString → Except GoString Int) (TrimSpace : GoString → GoString) : Config :=
  match configFile with
  | some configPath =>
    match loadConfigFromYAML ReadFile Unmarshal configPath with
    | Except.ok config => config
    | Except.error _ => loadConfigFromEnv Getenv Atoi TrimSpace
  | none => loadConfigFromEnv Getenv Atoi TrimSpace

/-- A `config.yaml` with two sessions and a configured retry count. -/
def yamlDocument : GoString :=
  str "sessions:\n  - sessionKey: sk-one\n  - sessionKey: sk-two\nretryCount: 9\n"

/-- A file system that holds `yamlDocument` at `config.yaml` and nothing else. -/
def yamlReadFile (path : GoString) : Except GoString GoString :=
  if path = str "config.yaml" then Except.ok yamlDocument
  else Except.error (str "no such file or directory")

/-- The value `yaml.Unmarshal` decodes from `yamlDocument`: the two sessions
and the retry count of the document, every other field zero.  Any other
document is refused here. -/
def yamlUnmarshal (data : GoString) : Except GoString Config :=
  if data = yamlDocument then
    Except.ok
      { Sessions := [{ SessionKey := str "sk-one", OrgID := [] },
                     { SessionKey := str "sk-two", OrgID := [] }]
        Address := [], APIKey := [], Proxies := [], ChatDelete := false
        MaxChatHistoryLength := 0, RetryCount := 9, NoRolePrefix := false
        PromptDisableArtifacts := false, EnableMirrorApi := false, MirrorApiPrefix := [] }
  else Except.error (str "yaml: unmarshal errors")

/-- An environment in which only `SESSIONS` is set, to `a,b,,c`. -/
def sessionsOnlyGetenv (name : GoString) : GoString :=
  if name = str "SESSIONS" then str "a,b,,c" else []

/-- An environment with `APIKEY=secret` and `ENABLE_MIRROR_API=true`, in which
`MIRROR_API_PREFIX` is not set. -/
def mirrorGetenv (name : GoString) : GoString :=
  if name = str "APIKEY" then str "secret"
  else if name = str "ENABLE_MIRROR_API" then str "true"
  else []

/-- `strconv.Atoi` on the empty string, the only argument the example
environments pass to it: a syntax error. -/
def atoiOfUnset (_ : GoString) : Except GoString Int :=
  Except.error (str "invalid syntax")

/-- The configuration `loadConfigFromYAML` builds from `yamlDocument`. -/
def yamlLoaded : Config :=
  { Sessions := [{ SessionKey := str "sk-one", OrgID := [] },
                 { SessionKey := str "sk-two", OrgID := [] }]
    Address := str "0.0.0.0:8080", APIKey := [], Proxies := [], ChatDelete := false
    MaxChatHistoryLength := 0, RetryCount := 9, NoRolePrefix := false
    PromptDisableArtifacts := false, EnableMirrorApi := false, MirrorApiPrefix := [] }

/-- The sessions of a pool whose key is not empty. -/
def nonEmptySessions (sessions : List SessionInfo) : List SessionInfo :=
  sessions.filter (fun session => decide (session.SessionKey ≠ []))

/-! ## Proxy health filter (`config/proxy.go`) -/

/-- The marker of the challenge page. -/
def challengeMarker : GoString := str "Just a moment..."

/-- `func CheckAndFilterProxies(proxies []string) []string`.  The probe
`client.R().Get("https://claude.ai/login")` through proxy `p` is the function
`get`: `Except.error err` for `err != nil`, `Except.ok body` for a response
whose `ToString()` is `body`.  The slice `usable` starts empty and grows by
`append` in the loop. -/
def CheckAndFilterProxies (get : GoString → Except GoString GoString)
    (proxies : List GoString) : List GoString :=
  proxies.foldl
    (fun usable p =>
      match get p with
      | Except.error _ => usable
      | Except.ok body =>
        if Contains body challengeMarker then usable
        else usable ++ [p])
    []

/-- A proxy is usable when its probe succeeds with a body in which the marker
does not occur; stated with the infix relation of lists. -/
def usableProxy (get : GoString → Except GoString GoString) (p : GoString) : Bool :=
  match get p with
  | Except.error _ => false
  | Except.ok body => decide (¬ challengeMarker <:+: body)

/-- Three simulated proxies: the first answers a normal page, the second the
challenge page, every other address times out. -/
def simulatedGet (p : GoString) : Except GoString GoString :=
  if p = str "http://10.0.0.1:3128" then
    Except.ok (str "<html><title>Claude</title></html>")
  else if p = str "http://10.0.0.2:3128" then
    Except.ok (str "<html><title>Just a moment...</title></html>")
  else
    Except.error (str "context deadline exceeded")

/-! ## SHA-256 (Go `crypto/sha256`, FIPS 180-4)

The standard-library hash `SelectProxyBySessionKey` calls.  Words are natural
numbers below `2^32`; every addition is reduced modulo `2^32`. -/

namespace sha256

/-- Reduction of a sum to a 32-bit word. -/
def mask32 (x : Nat) : Nat := x % 4294967296

/-- Rotation of a 32-bit word to the right by `n` bits. -/
def rotr (x n : Nat) : Nat := mask32 ((x >>> n) ||| (x <<< (32 - n)))

/-- The choice function `Ch`. -/
def ch (x y z : Nat) : Nat := (x &&& y) ^^^ ((4294967295 - x) &&& z)

/-- The majority function `Maj`. -/
def maj (x y z : Nat) : Nat := (x &&& y) ^^^ (x &&& z) ^^^ (y &&& z)

/-- The function written as capital sigma 0. -/
def bsig0 (x : Nat) : Nat := rotr x 2 ^^^ rotr x 13 ^^^ rotr x 22

/-- The function written as capital sigma 1. -/
def bsig1 (x : Nat) : Nat := rotr x 6 ^^^ rotr x 11 ^^^ rotr x 25

/-- The function written as small sigma 0. -/
def ssig0 (x : Nat) : Nat := rotr x 7 ^^^ rotr x 18 ^^^ (x >>> 3)

/-- The function written as small sigma 1. -/
def ssig1 (x : Nat) : Nat := rotr x 17 ^^^ rotr x 19 ^^^ (x >>> 10)

/-- The 64 round constants. -/
def K : List Nat := [
  0x428a2f98, 0x71374491, 0xb5c0fbcf, 0xe9b5dba5, 0x3956c25b, 0x59f111f1, 0x923f82a4, 0xab1c5ed5,
  0xd807aa98, 0x12835b01, 0x243185be, 0x550c7dc3, 0x72be5d74, 0x80deb1fe, 0x9bdc06a7, 0xc19bf174,
  0xe49b69c1, 0xefbe4786, 0x0fc19dc6, 0x240ca1cc, 0x2de92c6f, 0x4a7484aa, 0x5cb0a9dc, 0x76f988da,
  0x983e5152, 0xa831c66d, 0xb00327c8, 0xbf597fc7, 0xc6e00bf3, 0xd5a79147, 0x06ca6351, 0x14292967,
  0x27b70a85, 0x2e1b2138, 0x4d2c6dfc, 0x53380d13, 0x650a7354, 0x766a0abb, 0x81c2c92e, 0x92722c85,
  0xa2bfe8a1, 0xa81a664b, 0xc24b8b70, 0xc76c51a3, 0xd192e819, 0xd6990624, 0xf40e3585, 0x106aa070,
  0x19a4c116, 0x1e376c08, 0x2748774c, 0x34b0bcb5, 0x391c0cb3, 0x4ed8aa4a, 0x5b9cca4f, 0x682e6ff3,
  0x748f82ee, 0x78a5636f, 0x84c87814, 0x8cc70208, 0x90befffa, 0xa4506ceb, 0xbef9a3f7, 0xc67178f2]

/-- The eight working words of the hash. -/
structure State where
  a : Nat
  b : Nat
  c : Nat
  d : Nat
  e : Nat
  f : Nat
  g : Nat
  h : Nat
deriving DecidableEq, Repr

/-- The initial hash value. -/
def init : State :=
  { a := 0x6a09e667, b := 0xbb67ae85, c := 0x3c6ef372, d := 0xa54ff53a,
    e := 0x510e527f, f := 0x9b05688c, g := 0x1f83d9ab, h := 0x5be0cd19 }

/-- Big-endian 32-bit words of a byte sequence, four bytes at a time. -/
def words : List Nat → List Nat
  | b0 :: b1 :: b2 :: b3 :: rest => (b0 * 16777216 + b1 * 65536 + b2 * 256 + b3) :: words rest
  | _ => []

/-- Extension of the message schedule by `n` words; `ws` holds the words so far,
the latest first. -/
def extend : Nat → List Nat → List Nat
  | 0, ws => ws
  | n + 1, ws =>
    extend n (mask32 (ssig1 (ws.getD 1 0) + ws.getD 6 0 + ssig0 (ws.getD 14 0) + ws.getD 15 0) :: ws)

/-- One round, on a round constant paired with a schedule word. -/
def round (s : State) (kw : Nat × Nat) : State :=
  let t1 := s.h + bsig1 s.e + ch s.e s.f s.g + kw.1 + kw.2
  let t2 := bsig0 s.a + maj s.a s.b s.c
  { a := mask32 (t1 + t2), b := s.a, c := s.b, d := s.c,
    e := mask32 (s.d + t1), f := s.e, g := s.f, h := s.g }

/-- Compression of one 64-byte block into the hash value. -/
def block (s : State) (blk : List Nat) : State :=
  let w := (extend 48 (words blk).reverse).reverse
  let t := (K.zip w).foldl round s
  { a := mask32 (s.a + t.a), b := mask32 (s.b + t.b), c := mask32 (s.c + t.c),
    d := mask32 (s.d + t.d), e := mask32 (s.e + t.e), f := mask32 (s.f + t.f),
    g := mask32 (s.g + t.g), h := mask32 (s.h + t.h) }

/-- Compression of the first `n` blocks of a message. -/
def blocks : Nat → State → List Nat → State
  | 0, s, _ => s
  | n + 1, s, m => blocks n (block s (m.take 64)) (m.drop 64)

/-- The padded message: a `0x80` byte, zero bytes up to 56 modulo 64, and the
length in bits as a big-endian 64-bit number. -/
def pad (m : List Nat) : List Nat :=
  m ++ [128] ++ List.replicate ((119 - m.length % 64) % 64) 0
    ++ [7, 6, 5, 4, 3, 2, 1, 0].map (fun i => ((m.length * 8) >>> (8 * i)) % 256)

/-- The four bytes of a word, most significant first. -/
def wordBytes (w : Nat) : List UInt8 :=
  [UInt8.ofNat (w >>> 24), UInt8.ofNat (w >>> 16), UInt8.ofNat (w >>> 8), UInt8.ofNat w]

/-- Go `[Size]byte` with `Size = 32`: the checksum. -/
structure Sum where
  bytes : List UInt8
  size : bytes.length = 32

/-- Indexing of the checksum array, `sum[i]`. -/
def Sum.at (sum : Sum) (i : Fin 32) : UInt8 := sum.bytes.get (i.cast sum.size.symm)

/-- Go `sha256.Sum256`. -/
def Sum256 (data : GoString) : Sum :=
  let p := pad (data.map UInt8.toNat)
  let s := blocks (p.length / 64) init p
  { bytes := wordBytes s.a ++ wordBytes s.b ++ wordBytes s.c ++ wordBytes s.d
      ++ wordBytes s.e ++ wordBytes s.f ++ wordBytes s.g ++ wordBytes s.h
    size := rfl }

end sha256

/-! ## Sticky proxy selector (`config/proxy.go`) -/

/-- `func SelectProxyBySessionKey(sessionKey string, proxies []string) string`.
The result is `none` when Go panics (index out of range).  The byte `sum[0]`
and the length are not negative, so `int(sum[0]) % len(proxies)` is the
remainder of natural numbers. -/
def SelectProxyBySessionKey (sessionKey : GoString) (proxies : List GoString) : Option GoString :=
  if proxies.length = 0 then some []
  else
    let sum := sha256.Sum256 sessionKey
    let idx := (sum.at 0).toNat % proxies.length
    proxies.get? idx

/-- The index `int(sum[0]) % len(proxies)` that `SelectProxyBySessionKey`
computes from the first byte of the checksum and the number of proxies. -/
def proxyIndex (first : UInt8) (n : Nat) : Nat := first.toNat % n

/-- The 256 values of a byte, in increasing order. -/
def allBytes : List UInt8 := (List.range 256).map UInt8.ofNat

/-- The number of byte values that `proxyIndex` sends to the index `i` when
there are `n` proxies. -/
def bytesSentTo (n i : Nat) : Nat :=
  allBytes.countP (fun b => decide (proxyIndex b n = i))

/-- A list of 300 proxy addresses, the address at position `i` being the bytes
of `p` followed by the two bytes of `i`. -/
def manyProxies : List GoString :=
  (List.range 300).map (fun i => str "p" ++ [UInt8.ofNat (i / 256), UInt8.ofNat (i % 256)])

/-- Three proxy addresses for the examples. -/
def threeProxies : List GoString :=
  [str "http://10.0.0.1:3128", str "http://10.0.0.2:3128", str "http://10.0.0.3:3128"]

/-! ## Access gate (`middleware/auth.go`) -/

/-- What the handler does with a request: `next` is `c.Next()` (with the value
stored under `"UseMirrorApi"`, if any), `abort` is `c.JSON(status, error)`
followed by `c.Abort()`. -/
inductive AuthOutcome where
  | next (useMirrorApi : Bool)
  | abort (status : Nat) (error : GoString)
deriving DecidableEq, Repr

/-- The handler returned by `func AuthMiddleware() gin.HandlerFunc`, as a
function of the global configuration, of `c.Request.URL.Path` and of
`c.GetHeader("Authorization")` (the empty string when the request has no such
header). -/
def AuthMiddleware (ConfigInstance : Config) (path authorization : GoString) : AuthOutcome :=
  if ConfigInstance.EnableMirrorApi && HasPrefix path ConfigInstance.MirrorApiPrefix then
    AuthOutcome.next true
  else
    let Key := authorization
    if Key ≠ [] then
      let Key := TrimPrefix Key (str "Bearer ")
      if Key ≠ ConfigInstance.APIKey then
        AuthOutcome.abort 401 (str "Invalid API key")
      else
        AuthOutcome.next false
    else
      AuthOutcome.abort 401 (str "Missing or invalid Authorization header")

/-- The decision of the access gate, in the words of the specification. -/
inductive Decision where
  | Allow
  | Deny (reason : GoString)
deriving DecidableEq, Repr

/-- The decision a handler outcome stands for. -/
def AuthOutcome.decision : AuthOutcome → Decision
  | AuthOutcome.next _ => Decision.Allow
  | AuthOutcome.abort _ reason => Decision.Deny reason

/-- The header with one leading `"Bearer "` removed when it is there, stated
with list prefixes rather than with the library functions. -/
def stripBearer (header : GoString) : GoString :=
  if str "Bearer " <+: header then header.drop 7 else header

/-- The reference decision procedure of the access gate, following the
specification: the mirror bypass first, then the missing header, then the
comparison of the stripped header with the key. -/
def authorizeReference (mirror : Bool) (mirrorPrefix apiKey path header : GoString) : Decision :=
  if mirror = true ∧ mirrorPrefix <+: path then Decision.Allow
  else if header = [] then Decision.Deny (str "Missing or invalid Authorization header")
  else if stripBearer header = apiKey then Decision.Allow
  else Decision.Deny (str "Invalid API key")

/-- A configuration for the access-gate scenarios: no sessions, the given
mirror flag and API key, and `/mirror` as mirror prefix. -/
def gateConfig (mirror : Bool) (apiKey : GoString) : Config :=
  { Sessions := [], Address := str "0.0.0.0:8080", APIKey := apiKey, Proxies := [],
    ChatDelete := true, MaxChatHistoryLength := 10000, RetryCount := 0,
    NoRolePrefix := false, PromptDisableArtifacts := false,
    EnableMirrorApi := mirror, MirrorApiPrefix := str "/mirror" }

/-! ## Theorems -/

/-- One call of `NextIndex` on a non-empty pool with the cursor at `c < N`. -/
theorem NextIndex_of_lt (cfg : Config) (c : Nat) (hN : 0 < cfg.Sessions.length) :
    NextIndex cfg { Index := (c : Int) }
      = some ((c : Int), { Index := (((c + 1) % cfg.Sessions.length : Nat) : Int) }) := by
  have h0 : cfg.Sessions.length ≠ 0 := Nat.pos_iff_ne_zero.mp hN
  simp only [NextIndex, h0, if_false]
  have hc : ((c : Int) + 1) = ((c + 1 : Nat) : Int) := by push_cast; ring
  rw [hc, Int.ofNat_tmod]

/-- The values `k` calls return from cursor `c`: `c, c+1, ...` reduced modulo `N`. -/
theorem callsNextIndex_eq (cfg : Config) (hN : 0 < cfg.Sessions.length) (k : Nat) :
    ∀ c : Nat, c < cfg.Sessions.length →
      callsNextIndex cfg k { Index := (c : Int) }
        = some ((List.range k).map (fun j => (((c + j) % cfg.Sessions.length : Nat) : Int)),
                { Index := (((c + k) % cfg.Sessions.length : Nat) : Int) }) := by
  induction k with
  | zero =>
    intro c hc
    simp [callsNextIndex, Nat.mod_eq_of_lt hc]
  | succ k ih =>
    intro c hc
    have hlt : (c + 1) % cfg.Sessions.length < cfg.Sessions.length := Nat.mod_lt _ hN
    simp only [callsNextIndex, NextIndex_of_lt cfg c hN, ih _ hlt]
    simp only [List.range_succ_eq_map, List.map_cons, List.map_map, Nat.add_zero,
      Nat.mod_eq_of_lt hc, Option.some.injEq, Prod.mk.injEq, List.cons.injEq, true_and]
    constructor
    · apply List.map_congr_left
      intro j _
      simp only [Function.comp, Nat.succ_eq_add_one]
      congr 1
      rw [Nat.mod_add_mod]
      congr 1
      omega
    · congr 2
      rw [Nat.mod_add_mod]
      congr 1
      omega

/-- The residues `c, c+1, ..., c+N-1` modulo `N` are a rearrangement of `0, ..., N-1`. -/
theorem shifted_range_perm (N c : Nat) :
    ((List.range N).map (fun j => (c + j) % N)).Perm (List.range N) := by
  rcases Nat.eq_zero_or_pos N with h | hN
  · subst h; simp
  have hnd : ((List.range N).map (fun j => (c + j) % N)).Nodup := by
    apply List.Nodup.map_on _ (List.nodup_range N)
    intro i hi j hj hij
    rw [List.mem_range] at hi hj
    have h1 : i % N = j % N := Nat.ModEq.add_left_cancel' c hij
    rwa [Nat.mod_eq_of_lt hi, Nat.mod_eq_of_lt hj] at h1
  have hsub : (List.range N).map (fun j => (c + j) % N) ⊆ List.range N := by
    intro x hx
    rw [List.mem_map] at hx
    obtain ⟨j, _, rfl⟩ := hx
    exact List.mem_range.mpr (Nat.mod_lt _ hN)
  exact (List.subperm_of_subset hnd hsub).perm_of_length_le (by simp)

/-- C1. On a pool of `N > 0` sessions with the cursor anywhere in `[0, N)`,
`N` consecutive calls of `NextIndex` all return, their values are a permutation
of `0, ..., N-1`, and the call after them returns the value of the first call. -/
theorem C1_round_robin_coverage (cfg : Config) (sr : SessionRagen)
    (hN : 0 < cfg.Sessions.length)
    (h0 : 0 ≤ sr.Index) (h1 : sr.Index < (cfg.Sessions.length : Int)) :
    ∃ outs last sr1 sr2,
      callsNextIndex cfg cfg.Sessions.length sr = some (outs, sr1) ∧
      outs.Perm ((List.range cfg.Sessions.length).map Int.ofNat) ∧
      callsNextIndex cfg (cfg.Sessions.length + 1) sr = some (outs ++ [last], sr2) ∧
      outs.head? = some last := by
  obtain ⟨c, hc⟩ := Int.eq_ofNat_of_zero_le h0
  have hsr : sr = { Index := (c : Int) } := by cases sr; simp_all
  subst hsr
  have hcN : c < cfg.Sessions.length := by
    have h2 : (c : Int) < (cfg.Sessions.length : Int) := h1
    exact_mod_cast h2
  refine ⟨_, ((c : Nat) : Int), _,
    { Index := (((c + (cfg.Sessions.length + 1)) % cfg.Sessions.length : Nat) : Int) },
    callsNextIndex_eq cfg hN _ c hcN, ?_, ?_, ?_⟩
  · have hp := (shifted_range_perm cfg.Sessions.length c).map Int.ofNat
    simpa [List.map_map, Function.comp] using hp
  · have e : (c + cfg.Sessions.length) % cfg.Sessions.length = c := by
      rw [Nat.add_mod_right]; exact Nat.mod_eq_of_lt hcN
    rw [callsNextIndex_eq cfg hN _ c hcN, List.range_succ, List.map_append]
    simp only [List.map_cons, List.map_nil, e]
  · have hr : (List.range cfg.Sessions.length).head? = some 0 := by
      obtain ⟨n, hn⟩ := Nat.exists_eq_succ_of_ne_zero (Nat.pos_iff_ne_zero.mp hN)
      rw [hn, List.range_succ_eq_map]; rfl
    rw [List.head?_map, hr]
    simp only [Option.map_some', Nat.add_zero, Nat.mod_eq_of_lt hcN]

/-- C1 at a pool of three sessions with the cursor at 0. -/
theorem C1_round_robin_coverage_witness :
    ∃ outs last sr1 sr2,
      callsNextIndex
          { Sessions := [⟨str "a", []⟩, ⟨str "b", []⟩, ⟨str "c", []⟩], Address := [], APIKey := [],
            Proxies := [], ChatDelete := true, MaxChatHistoryLength := 10000, RetryCount := 3,
            NoRolePrefix := false, PromptDisableArtifacts := false, EnableMirrorApi := false,
            MirrorApiPrefix := [] }
          3 { Index := 0 } = some (outs, sr1) ∧
      outs.Perm ((List.range 3).map Int.ofNat) ∧
      callsNextIndex
          { Sessions := [⟨str "a", []⟩, ⟨str "b", []⟩, ⟨str "c", []⟩], Address := [], APIKey := [],
            Proxies := [], ChatDelete := true, MaxChatHistoryLength := 10000, RetryCount := 3,
            NoRolePrefix := false, PromptDisableArtifacts := false, EnableMirrorApi := false,
            MirrorApiPrefix := [] }
          (3 + 1) { Index := 0 } = some (outs ++ [last], sr2) ∧
      outs.head? = some last :=
  C1_round_robin_coverage
    { Sessions := [⟨str "a", []⟩, ⟨str "b", []⟩, ⟨str "c", []⟩], Address := [], APIKey := [],
      Proxies := [], ChatDelete := true, MaxChatHistoryLength := 10000, RetryCount := 3,
      NoRolePrefix := false, PromptDisableArtifacts := false, EnableMirrorApi := false,
      MirrorApiPrefix := [] }
    { Index := 0 } (by decide) (by decide) (by decide)

/-- `strings.HasPrefix` decides the list-prefix relation. -/
theorem HasPrefix_iff (s pre : GoString) : HasPrefix s pre = true ↔ pre <+: s := by
  unfold HasPrefix
  rw [Bool.and_eq_true, decide_eq_true_eq, beq_iff_eq]
  constructor
  · rintro ⟨_, h⟩
    exact List.prefix_iff_eq_take.mpr h.symm
  · intro h
    exact ⟨h.length_le, (List.prefix_iff_eq_take.mp h).symm⟩

/-- `strings.Contains` decides the infix relation. -/
theorem Contains_iff (s sub : GoString) : Contains s sub = true ↔ sub <:+: s := by
  induction s with
  | nil =>
    rw [Contains, HasPrefix_iff, List.prefix_nil, List.infix_nil]
  | cons c rest ih =>
    rw [Contains, Bool.or_eq_true, HasPrefix_iff, ih, List.infix_cons_iff]

/-- The loop of `CheckAndFilterProxies` from any accumulated slice. -/
theorem filter_loop (get : GoString → Except GoString GoString) (proxies : List GoString) :
    ∀ usable : List GoString,
      proxies.foldl
          (fun usable p =>
            match get p with
            | Except.error _ => usable
            | Except.ok body =>
              if Contains body challengeMarker then usable
              else usable ++ [p])
          usable
        = usable ++ proxies.filter (usableProxy get) := by
  induction proxies with
  | nil => intro usable; simp
  | cons p rest ih =>
    intro usable
    rw [List.foldl_cons, ih, List.filter_cons]
    unfold usableProxy
    cases hg : get p with
    | error e => simp
    | ok body =>
      by_cases hc : challengeMarker <:+: body
      · have hC : Contains body challengeMarker = true := (Contains_iff _ _).mpr hc
        simp [hC, hc]
      · have hC : ¬ Contains body challengeMarker = true := fun h => hc ((Contains_iff _ _).mp h)
        simp [hC, hc]

/-- `strings.TrimPrefix` with `"Bearer "` is the stripping of the reference. -/
theorem TrimPrefix_Bearer (h : GoString) : TrimPrefix h (str "Bearer ") = stripBearer h := by
  unfold TrimPrefix stripBearer
  by_cases hp : str "Bearer " <+: h
  · rw [if_pos ((HasPrefix_iff _ _).mpr hp), if_pos hp]; rfl
  · have hn : ¬ HasPrefix h (str "Bearer ") = true := fun hh => hp ((HasPrefix_iff _ _).mp hh)
    rw [if_neg hn, if_neg hp]

/-- The stripped header equals the key exactly when the header is the key behind
`"Bearer "`, or is the key itself and does not start with `"Bearer "`. -/
theorem stripBearer_eq_iff (h key : GoString) :
    stripBearer h = key ↔
      (h = str "Bearer " ++ key ∨ (¬ str "Bearer " <+: h ∧ h = key)) := by
  unfold stripBearer
  by_cases hp : str "Bearer " <+: h
  · rw [if_pos hp]
    obtain ⟨t, rfl⟩ := hp
    have hd : (str "Bearer " ++ t).drop 7 = t := rfl
    rw [hd]
    constructor
    · intro e; exact Or.inl (by rw [e])
    · rintro (e | ⟨hn, _⟩)
      · exact List.append_cancel_left e
      · exact absurd (List.prefix_append _ _) hn
  · rw [if_neg hp]
    constructor
    · intro e; exact Or.inr ⟨hp, e⟩
    · rintro (e | ⟨_, e⟩)
      · exact absurd (e ▸ List.prefix_append _ _) hp
      · exact e

/-- C2. For every configuration (mirror flag, mirror prefix, API key), path and
Authorization header value, the decision of `AuthMiddleware` is the one of the
reference procedure; and outside the mirror bypass the request is allowed if and
only if the header is non-empty and equals the key after the optional
`"Bearer "` is stripped. -/
theorem C2_access_gate_decision (cfg : Config) (path header : GoString) :
    (AuthMiddleware cfg path header).decision
        = authorizeReference cfg.EnableMirrorApi cfg.MirrorApiPrefix cfg.APIKey path header
    ∧ (¬ (cfg.EnableMirrorApi = true ∧ cfg.MirrorApiPrefix <+: path) →
        ((AuthMiddleware cfg path header).decision = Decision.Allow ↔
          header ≠ [] ∧ (header = str "Bearer " ++ cfg.APIKey ∨
            (¬ str "Bearer " <+: header ∧ header = cfg.APIKey)))) := by
  have key : (AuthMiddleware cfg path header).decision
        = authorizeReference cfg.EnableMirrorApi cfg.MirrorApiPrefix cfg.APIKey path header := by
    unfold AuthMiddleware authorizeReference
    by_cases hm : cfg.EnableMirrorApi = true ∧ cfg.MirrorApiPrefix <+: path
    · have hc : (cfg.EnableMirrorApi && HasPrefix path cfg.MirrorApiPrefix) = true := by
        rw [Bool.and_eq_true]; exact ⟨hm.1, (HasPrefix_iff _ _).mpr hm.2⟩
      rw [if_pos hc, if_pos hm]; rfl
    · have hc : ¬ (cfg.EnableMirrorApi && HasPrefix path cfg.MirrorApiPrefix) = true := by
        rw [Bool.and_eq_true]; exact fun hh => hm ⟨hh.1, (HasPrefix_iff _ _).mp hh.2⟩
      rw [if_neg hc, if_neg hm]
      by_cases he : header = []
      · simp [he, AuthOutcome.decision]
      · simp only [ne_eq, he, not_false_eq_true, if_true, if_false, TrimPrefix_Bearer]
        by_cases hk : stripBearer header = cfg.APIKey
        · simp [hk, AuthOutcome.decision]
        · simp [hk, AuthOutcome.decision]
  refine ⟨key, fun hm => ?_⟩
  rw [key, ← stripBearer_eq_iff]
  unfold authorizeReference
  rw [if_neg hm]
  by_cases he : header = []
  · simp [he]
  · by_cases hk : stripBearer header = cfg.APIKey
    · simp [he, hk]
    · simp [he, hk]

/-- C2 at scenario (a): mirror mode off, header `Bearer secret`, key `secret`. -/
theorem C2_access_gate_decision_witness :
    (AuthMiddleware (gateConfig false (str "secret")) (str "/v1/chat/completions")
        (str "Bearer secret")).decision = Decision.Allow :=
  ((C2_access_gate_decision (gateConfig false (str "secret")) (str "/v1/chat/completions")
      (str "Bearer secret")).2 (by decide)).mpr ⟨by decide, Or.inl (by decide)⟩

/-- The four access-gate scenarios of the specification, evaluated on the handler. -/
theorem access_gate_scenarios :
    AuthMiddleware (gateConfig false (str "secret")) (str "/v1/chat/completions")
        (str "Bearer secret") = AuthOutcome.next false
    ∧ AuthMiddleware (gateConfig false (str "other")) (str "/v1/chat/completions")
        (str "Bearer secret") = AuthOutcome.abort 401 (str "Invalid API key")
    ∧ AuthMiddleware (gateConfig false (str "secret")) (str "/v1/chat/completions") []
        = AuthOutcome.abort 401 (str "Missing or invalid Authorization header")
    ∧ AuthMiddleware (gateConfig true (str "secret")) (str "/mirror/v1/chat/completions") []
        = AuthOutcome.next true := by
  decide

/-- Test vectors of SHA-256: the empty message, `abc`, and a message of 56
bytes, which takes two blocks. -/
theorem sha256_test_vectors :
    (sha256.Sum256 []).bytes =
      [0xe3, 0xb0, 0xc4, 0x42, 0x98, 0xfc, 0x1c, 0x14, 0x9a, 0xfb, 0xf4, 0xc8, 0x99, 0x6f, 0xb9,
       0x24, 0x27, 0xae, 0x41, 0xe4, 0x64, 0x9b, 0x93, 0x4c, 0xa4, 0x95, 0x99, 0x1b, 0x78, 0x52,
       0xb8, 0x55]
    ∧ (sha256.Sum256 (str "abc")).bytes =
      [0xba, 0x78, 0x16, 0xbf, 0x8f, 0x01, 0xcf, 0xea, 0x41, 0x41, 0x40, 0xde, 0x5d, 0xae, 0x22,
       0x23, 0xb0, 0x03, 0x61, 0xa3, 0x96, 0x17, 0x7a, 0x9c, 0xb4, 0x10, 0xff, 0x61, 0xf2, 0x00,
       0x15, 0xad]
    ∧ (sha256.Sum256 (str "abcdbcdecdefdefgefghfghighijhijkijkljklmklmnlmnomnopnopq")).bytes =
      [0x24, 0x8d, 0x6a, 0x61, 0xd2, 0x06, 0x38, 0xb8, 0xe5, 0xc0, 0x26, 0x93, 0x0c, 0x3e, 0x60,
       0x39, 0xa3, 0x3c, 0xe4, 0x59, 0x64, 0xff, 0x21, 0x67, 0xf6, 0xec, 0xed, 0xd4, 0x19, 0xdb,
       0x06, 0xc1] := by
  set_option maxRecDepth 100000 in decide

/-- The element `sum[0]` of a checksum is the first of its 32 bytes. -/
theorem Sum_at_zero (sum : sha256.Sum) : some (sum.at 0) = sum.bytes.head? := by
  obtain ⟨bytes, size⟩ := sum
  cases bytes with
  | nil => simp at size
  | cons b rest => rfl

/-- The checksums of the keys `a` and `b`. -/
theorem sha256_key_vectors :
    (sha256.Sum256 (str "a")).bytes =
      [0xca, 0x97, 0x81, 0x12, 0xca, 0x1b, 0xbd, 0xca, 0xfa, 0xc2, 0x31, 0xb3, 0x9a, 0x23, 0xdc,
       0x4d, 0xa7, 0x86, 0xef, 0xf8, 0x14, 0x7c, 0x4e, 0x72, 0xb9, 0x80, 0x77, 0x85, 0xaf, 0xee,
       0x48, 0xbb]
    ∧ (sha256.Sum256 (str "b")).bytes =
      [0x3e, 0x23, 0xe8, 0x16, 0x00, 0x39, 0x59, 0x4a, 0x33, 0x89, 0x4f, 0x65, 0x64, 0xe1, 0xb1,
       0x34, 0x8b, 0xbd, 0x7a, 0x00, 0x88, 0xd4, 0x2c, 0x4a, 0xcb, 0x73, 0xee, 0xae, 0xd5, 0x9c,
       0x00, 0x9d] := by
  set_option maxRecDepth 100000 in decide

/-- C3. `SelectProxyBySessionKey k P` returns the empty string for an empty `P`;
for a non-empty `P` the index (first byte of the SHA-256 of `k`) modulo `len(P)`
is within bounds, the call does not panic and returns the element of `P` at
that index, which is one of the elements of `P`; and equal arguments give equal
results.  The digest is the SHA-256 of the key and the byte taken is its first:
`sum[0]` is the head of the 32 digest bytes, the digests of `abc`, `a` and `b`
are the published ones (first bytes `0xba`, `0xca`, `0x3e`), and so over three
proxies the keys `abc`, `a`, `b` select the positions `186 % 3 = 0`,
`202 % 3 = 1`, `62 % 3 = 2`, and over 300 proxies the key `b` selects position
62. -/
theorem C3_select_proxy (k : GoString) (P : List GoString) :
    (P = [] → SelectProxyBySessionKey k P = some [])
    ∧ (P ≠ [] →
        ∃ h : ((sha256.Sum256 k).at 0).toNat % P.length < P.length,
          SelectProxyBySessionKey k P
              = some (P.get ⟨((sha256.Sum256 k).at 0).toNat % P.length, h⟩)
          ∧ P.get ⟨((sha256.Sum256 k).at 0).toNat % P.length, h⟩ ∈ P)
    ∧ (P ≠ [] →
        SelectProxyBySessionKey k P = P.get? (((sha256.Sum256 k).at 0).toNat % P.length))
    ∧ (∀ k2 P2, k2 = k → P2 = P →
        SelectProxyBySessionKey k2 P2 = SelectProxyBySessionKey k P)
    ∧ some ((sha256.Sum256 k).at 0) = (sha256.Sum256 k).bytes.head?
    ∧ (sha256.Sum256 k).bytes.length = 32
    ∧ (sha256.Sum256 (str "abc")).bytes =
        [0xba, 0x78, 0x16, 0xbf, 0x8f, 0x01, 0xcf, 0xea, 0x41, 0x41, 0x40, 0xde, 0x5d, 0xae, 0x22,
         0x23, 0xb0, 0x03, 0x61, 0xa3, 0x96, 0x17, 0x7a, 0x9c, 0xb4, 0x10, 0xff, 0x61, 0xf2, 0x00,
         0x15, 0xad]
    ∧ (sha256.Sum256 (str "a")).bytes =
        [0xca, 0x97, 0x81, 0x12, 0xca, 0x1b, 0xbd, 0xca, 0xfa, 0xc2, 0x31, 0xb3, 0x9a, 0x23, 0xdc,
         0x4d, 0xa7, 0x86, 0xef, 0xf8, 0x14, 0x7c, 0x4e, 0x72, 0xb9, 0x80, 0x77, 0x85, 0xaf, 0xee,
         0x48, 0xbb]
    ∧ (sha256.Sum256 (str "b")).bytes =
        [0x3e, 0x23, 0xe8, 0x16, 0x00, 0x39, 0x59, 0x4a, 0x33, 0x89, 0x4f, 0x65, 0x64, 0xe1, 0xb1,
         0x34, 0x8b, 0xbd, 0x7a, 0x00, 0x88, 0xd4, 0x2c, 0x4a, 0xcb, 0x73, 0xee, 0xae, 0xd5, 0x9c,
         0x00, 0x9d]
    ∧ SelectProxyBySessionKey (str "abc") threeProxies = some (str "http://10.0.0.1:3128")
    ∧ SelectProxyBySessionKey (str "a") threeProxies = some (str "http://10.0.0.2:3128")
    ∧ SelectProxyBySessionKey (str "b") threeProxies = some (str "http://10.0.0.3:3128")
    ∧ SelectProxyBySessionKey (str "b") manyProxies = manyProxies.get? 62
    ∧ manyProxies.get? 62 = some (str "p" ++ [0, 62]) := by
  have hget : P ≠ [] →
      SelectProxyBySessionKey k P = P.get? (((sha256.Sum256 k).at 0).toNat % P.length) := by
    intro hP
    have hlen : P.length ≠ 0 := fun h0 => hP (List.length_eq_zero.mp h0)
    unfold SelectProxyBySessionKey
    rw [if_neg hlen]
  refine ⟨?_, ?_, hget, ?_, Sum_at_zero _, (sha256.Sum256 k).size, sha256_test_vectors.2.1,
    sha256_key_vectors.1, sha256_key_vectors.2, ?_, ?_, ?_, ?_, ?_⟩
  · intro hP
    subst hP
    rfl
  · intro hP
    have hlen : P.length ≠ 0 := fun h0 => hP (List.length_eq_zero.mp h0)
    have hlt : ((sha256.Sum256 k).at 0).toNat % P.length < P.length :=
      Nat.mod_lt _ (Nat.pos_of_ne_zero hlen)
    refine ⟨hlt, ?_, List.get_mem _ _ _⟩
    rw [hget hP]
    exact List.get?_eq_get hlt
  · intro k2 P2 hk hP2
    rw [hk, hP2]
  · set_option maxRecDepth 100000 in decide
  · set_option maxRecDepth 100000 in decide
  · set_option maxRecDepth 100000 in decide
  · set_option maxRecDepth 100000 in decide
  · set_option maxRecDepth 100000 in decide

/-- C3 at the key `b` and three proxies: the first digest byte is `0x3e = 62`,
`62 % 3 = 2`, and the third proxy is returned. -/
theorem C3_select_proxy_witness :
    threeProxies ≠ []
    ∧ SelectProxyBySessionKey (str "b") threeProxies = some (str "http://10.0.0.3:3128")
    ∧ ∃ p ∈ threeProxies, SelectProxyBySessionKey (str "b") threeProxies = some p :=
  ⟨by decide,
    ((C3_select_proxy (str "b") threeProxies).2.2.1 (by decide)).trans
      (by set_option maxRecDepth 100000 in decide),
    let ⟨_, e, m⟩ := (C3_select_proxy (str "b") threeProxies).2.1 (by decide)
    ⟨_, m, e⟩⟩

/-- The first byte of the SHA-256 of `abc` is `0xba = 186`, and `186 % 3 = 0`:
the key `abc` is sent through the first of three proxies. -/
theorem select_proxy_abc :
    SelectProxyBySessionKey (str "abc") threeProxies = some (str "http://10.0.0.1:3128")
    ∧ SelectProxyBySessionKey (str "abc") [] = some [] := by
  set_option maxRecDepth 100000 in decide

/-- C4. With the probe a function from proxy address to a transport failure or
a response body, `CheckAndFilterProxies` returns the order-preserving filter of
its input by "the probe succeeded and the body does not contain the marker";
the empty list gives the empty list; and of three proxies answering a normal
page, a page with the marker and a failure, only the first is returned. -/
theorem C4_health_filter (get : GoString → Except GoString GoString) :
    (∀ proxies, CheckAndFilterProxies get proxies = proxies.filter (usableProxy get))
    ∧ (∀ p, usableProxy get p = true ↔ ∃ body, get p = Except.ok body ∧ ¬ challengeMarker <:+: body)
    ∧ CheckAndFilterProxies get [] = []
    ∧ (∀ p1 p2 p3 page blocked err,
        get p1 = Except.ok page → ¬ challengeMarker <:+: page →
        get p2 = Except.ok blocked → challengeMarker <:+: blocked →
        get p3 = Except.error err →
        CheckAndFilterProxies get [p1, p2, p3] = [p1]) := by
  have hfilter : ∀ proxies, CheckAndFilterProxies get proxies = proxies.filter (usableProxy get) := by
    intro proxies
    unfold CheckAndFilterProxies
    rw [filter_loop, List.nil_append]
  have husable : ∀ p, usableProxy get p = true ↔
      ∃ body, get p = Except.ok body ∧ ¬ challengeMarker <:+: body := by
    intro p
    unfold usableProxy
    cases hg : get p with
    | error e => simp
    | ok body => simp
  refine ⟨hfilter, husable, rfl, ?_⟩
  intro p1 p2 p3 page blocked err h1 hpage h2 hblocked h3
  have u1 : usableProxy get p1 = true := (husable p1).mpr ⟨page, h1, hpage⟩
  have u2 : usableProxy get p2 = false := by
    rw [← Bool.not_eq_true, husable]
    rintro ⟨body, hb, hn⟩
    rw [h2] at hb
    cases hb
    exact hn hblocked
  have u3 : usableProxy get p3 = false := by
    rw [← Bool.not_eq_true, husable]
    rintro ⟨body, hb, _⟩
    rw [h3] at hb
    cases hb
  rw [hfilter]
  simp [List.filter_cons, u1, u2, u3]

/-- C4 at the three simulated proxies: only the first is kept. -/
theorem C4_health_filter_witness :
    CheckAndFilterProxies simulatedGet threeProxies = [str "http://10.0.0.1:3128"] :=
  (C4_health_filter simulatedGet).2.2.2
    (str "http://10.0.0.1:3128") (str "http://10.0.0.2:3128") (str "http://10.0.0.3:3128")
    (str "<html><title>Claude</title></html>")
    (str "<html><title>Just a moment...</title></html>")
    (str "context deadline exceeded")
    rfl
    (fun h => absurd ((Contains_iff _ _).mpr h) (by decide))
    rfl
    ((Contains_iff _ _).mp (by decide))
    rfl

/-- `strings.Split` on a non-empty string, one byte at a time. -/
theorem Split_cons (c : UInt8) (rest : GoString) (sep : UInt8) :
    Split (c :: rest) sep
      = if c = sep then [] :: Split rest sep
        else
          match Split rest sep with
          | [] => [[c]]
          | piece :: pieces => (c :: piece) :: pieces := by
  rw [Split]

/-- `strings.Split` returns at least one piece. -/
theorem Split_ne_nil (s : GoString) (sep : UInt8) : Split s sep ≠ [] := by
  cases s with
  | nil => simp [Split]
  | cons c rest =>
    unfold Split
    split_ifs
    · simp
    · split <;> simp

/-- The first piece is the text before the first separator, and the other
pieces are those of the text after it. -/
theorem Split_eq (s : GoString) (sep : UInt8) :
    Split s sep
      = s.takeWhile (fun b => decide (b ≠ sep))
        :: (match s.dropWhile (fun b => decide (b ≠ sep)) with
            | [] => []
            | _ :: rest => Split rest sep) := by
  induction s with
  | nil => simp [Split]
  | cons c rest ih =>
    rw [Split_cons]
    by_cases hc : c = sep
    · simp [hc]
    · rw [if_neg hc, ih]
      simp [hc]

/-- No piece contains the separator. -/
theorem Split_no_sep (s : GoString) (sep : UInt8) : ∀ piece ∈ Split s sep, sep ∉ piece := by
  induction s with
  | nil => simp [Split]
  | cons c rest ih =>
    unfold Split
    by_cases hc : c = sep
    · rw [if_pos hc]
      intro piece hp
      rcases List.mem_cons.mp hp with h | h
      · simp [h]
      · exact ih piece h
    · rw [if_neg hc]
      cases hS : Split rest sep with
      | nil => exact absurd hS (Split_ne_nil rest sep)
      | cons p ps =>
        rw [hS] at ih
        intro piece hp
        rcases List.mem_cons.mp hp with h | h
        · subst h
          intro hmem
          rcases List.mem_cons.mp hmem with h1 | h1
          · exact hc h1.symm
          · exact ih p (List.mem_cons_self _ _) h1
        · exact ih piece (List.mem_cons_of_mem _ h)

/-- Joining the pieces with the separator gives the string back. -/
theorem Join_Split (s : GoString) (sep : UInt8) : Join (Split s sep) sep = s := by
  induction s with
  | nil => simp [Split, Join]
  | cons c rest ih =>
    unfold Split
    by_cases hc : c = sep
    · rw [if_pos hc]
      cases hS : Split rest sep with
      | nil => exact absurd hS (Split_ne_nil rest sep)
      | cons p ps =>
        rw [hS] at ih
        rw [Join, ih, hc, List.nil_append]
        simp
    · rw [if_neg hc]
      cases hS : Split rest sep with
      | nil => exact absurd hS (Split_ne_nil rest sep)
      | cons p ps =>
        rw [hS] at ih
        cases ps with
        | nil =>
          simp only [Join] at ih ⊢
          rw [ih]
        | cons q qs =>
          rw [Join] at ih ⊢
          · rw [List.cons_append, ih]
          · simp
          · simp

/-- Splitting a join of pieces without separator gives the pieces back. -/
theorem Split_Join (sep : UInt8) (pieces : List GoString) (hne : pieces ≠ [])
    (hsep : ∀ piece ∈ pieces, sep ∉ piece) : Split (Join pieces sep) sep = pieces := by
  induction pieces with
  | nil => exact absurd rfl hne
  | cons p ps ih =>
    have hp : sep ∉ p := hsep p (List.mem_cons_self _ _)
    have key : ∀ (q : GoString), sep ∉ q → ∀ tail : GoString,
        Split (q ++ sep :: tail) sep = q :: Split tail sep := by
      intro q
      induction q with
      | nil => intro _ tail; simp [Split]
      | cons c q ihq =>
        intro hq tail
        have hc : c ≠ sep := fun h => hq (h ▸ List.mem_cons_self _ _)
        have hq2 : sep ∉ q := fun h => hq (List.mem_cons_of_mem _ h)
        rw [List.cons_append, Split, if_neg hc, ihq hq2]
    have single : ∀ (q : GoString), sep ∉ q → Split q sep = [q] := by
      intro q
      induction q with
      | nil => intro _; simp [Split]
      | cons c q ihq =>
        intro hq
        have hc : c ≠ sep := fun h => hq (h ▸ List.mem_cons_self _ _)
        have hq2 : sep ∉ q := fun h => hq (List.mem_cons_of_mem _ h)
        rw [Split, if_neg hc, ihq hq2]
    cases ps with
    | nil => simpa [Join] using single p hp
    | cons q qs =>
      rw [Join, key p hp, ih (by simp) (fun piece h => hsep piece (List.mem_cons_of_mem _ h))]
      simp

/-- The loop of `parseSessionEnv` from any state: every empty entry lowers the
counter by one, every other entry appends its session. -/
theorem parse_loop (pairs : List GoString) :
    ∀ (r : Int) (acc : List SessionInfo),
      pairs.foldl
          (fun (st : Int × List SessionInfo) pair =>
            if pair = [] then (st.1 - 1, st.2)
            else (st.1, st.2 ++ [sessionOfPair pair]))
          (r, acc)
        = (r - (pairs.length : Int) + ((pairs.filter (fun e => decide (e ≠ []))).length : Int),
           acc ++ (pairs.filter (fun e => decide (e ≠ []))).map sessionOfPair) := by
  induction pairs with
  | nil => intro r acc; simp
  | cons p rest ih =>
    intro r acc
    rw [List.foldl_cons]
    by_cases hp : p = []
    · rw [if_pos hp, ih]
      simp only [hp, List.filter_cons, ne_eq, not_true_eq_false, decide_False, List.length_cons,
        Bool.false_eq_true, if_false, Prod.mk.injEq, and_true]
      push_cast
      ring
    · rw [if_neg hp, ih]
      simp only [hp, List.filter_cons, ne_eq, not_false_eq_true, decide_True, List.length_cons,
        if_true, List.map_cons, List.append_assoc, List.singleton_append, Prod.mk.injEq, and_true]
      push_cast
      ring

/-- The empty string has no non-empty entry. -/
theorem entries_nil : entries [] = [] := by decide

/-- The result of `parseSessionEnv` in closed form. -/
theorem parseSessionEnv_eq (s : GoString) :
    parseSessionEnv s
      = (min 5 ((entries s).length : Int), (entries s).map sessionOfPair) := by
  unfold parseSessionEnv
  by_cases hs : s = []
  · subst hs
    rw [if_pos rfl, entries_nil]
    rfl
  · rw [if_neg hs]
    simp only [parse_loop, sub_self, zero_add, List.nil_append]
    unfold entries
    congr 1
    split_ifs with h
    · exact (min_eq_left (le_of_lt h)).symm
    · exact (min_eq_right (not_lt.mp h)).symm

/-- The number of sessions and the retry count `parseSessionEnv` returns. -/
theorem parseSessionEnv_counts (s : GoString) :
    (parseSessionEnv s).2.length = (entries s).length
    ∧ (parseSessionEnv s).1 = min 5 ((parseSessionEnv s).2.length : Int) := by
  rw [parseSessionEnv_eq]
  simp

/-- C5. For every session specification `s`, `parseSessionEnv s` returns as many
sessions as `s` has non-empty comma-separated entries, and the retry count is
the smaller of 5 and that number; `a,b,,c` gives 3 sessions and retry count 3,
seven non-empty entries give retry count 5, and the empty string gives no
session and retry count 0. -/
theorem C5_retry_budget :
    (∀ s, (parseSessionEnv s).2.length = (entries s).length
        ∧ (parseSessionEnv s).1 = min 5 ((parseSessionEnv s).2.length : Int))
    ∧ ((parseSessionEnv (str "a,b,,c")).2.length = 3 ∧ (parseSessionEnv (str "a,b,,c")).1 = 3)
    ∧ (∀ s, (entries s).length = 7 → (parseSessionEnv s).1 = 5)
    ∧ parseSessionEnv [] = (0, []) := by
  refine ⟨?_, ?_, ?_, ?_⟩
  · intro s
    exact parseSessionEnv_counts s
  · decide
  · intro s h7
    rw [parseSessionEnv_eq, h7]
    show min (5 : Int) ((7 : Nat) : Int) = 5
    decide
  · rfl

/-- C5 at a specification with seven non-empty entries and one empty entry. -/
theorem C5_retry_budget_witness :
    (entries (str "k1,k2,k3,,k4,k5,k6,k7")).length = 7
    ∧ (parseSessionEnv (str "k1,k2,k3,,k4,k5,k6,k7")).1 = 5 :=
  ⟨by decide, C5_retry_budget.2.2.1 (str "k1,k2,k3,,k4,k5,k6,k7") (by decide)⟩

/-- C6, as stated, fails on the YAML path: `config.yaml` with two sessions and
`retryCount: 9` loads with retry count 9, which is not `min 5 2`. -/
theorem C6_yaml_retry_count_not_derived :
    loadConfigFromYAML yamlReadFile yamlUnmarshal (str "config.yaml") = Except.ok yamlLoaded
    ∧ LoadConfig (some (str "config.yaml")) yamlReadFile yamlUnmarshal sessionsOnlyGetenv
        atoiOfUnset (fun p => p) = yamlLoaded
    ∧ (nonEmptySessions yamlLoaded.Sessions).length = 2
    ∧ yamlLoaded.RetryCount = 9
    ∧ ¬ (yamlLoaded.RetryCount = min 5 ((nonEmptySessions yamlLoaded.Sessions).length : Int)) := by
  refine ⟨rfl, rfl, by decide, rfl, by decide⟩

/-- C6, amended. A configuration loaded from the environment has the sessions
`parseSessionEnv` returns for `SESSIONS`, one per non-empty entry, and its retry
count is the smaller of 5 and their number.  A configuration loaded from the
YAML file has exactly the retry count and the sessions of the value that
`yaml.Unmarshal` decoded from the file, whatever the decoder returns: the retry
count is taken over and not derived from the sessions.
`LoadConfig` returns the YAML configuration when the file exists and loads,
and the environment configuration otherwise. -/
theorem C6_retry_count_by_source (ReadFile : GoString → Except GoString GoString)
    (Unmarshal : GoString → Except GoString Config) (Getenv : GoString → GoString)
    (Atoi : GoString → Except GoString Int) (TrimSpace : GoString → GoString) :
    ((loadConfigFromEnv Getenv Atoi TrimSpace).Sessions
        = (parseSessionEnv (Getenv (str "SESSIONS"))).2
      ∧ (loadConfigFromEnv Getenv Atoi TrimSpace).Sessions.length
        = (entries (Getenv (str "SESSIONS"))).length
      ∧ (loadConfigFromEnv Getenv Atoi TrimSpace).RetryCount
        = min 5 ((loadConfigFromEnv Getenv Atoi TrimSpace).Sessions.length : Int))
    ∧ (∀ path c, loadConfigFromYAML ReadFile Unmarshal path = Except.ok c →
        ∃ data decoded, ReadFile path = Except.ok data ∧ Unmarshal data = Except.ok decoded
          ∧ c.RetryCount = decoded.RetryCount ∧ c.Sessions = decoded.Sessions)
    ∧ (∀ configFile,
        (∃ path, configFile = some path
          ∧ loadConfigFromYAML ReadFile Unmarshal path
            = Except.ok (LoadConfig configFile ReadFile Unmarshal Getenv Atoi TrimSpace))
        ∨ ((∀ path, configFile = some path →
              ∃ err, loadConfigFromYAML ReadFile Unmarshal path = Except.error err)
          ∧ LoadConfig configFile ReadFile Unmarshal Getenv Atoi TrimSpace
            = loadConfigFromEnv Getenv Atoi TrimSpace)) := by
  refine ⟨?_, ?_, ?_⟩
  · have hS : (loadConfigFromEnv Getenv Atoi TrimSpace).Sessions
        = (parseSessionEnv (Getenv (str "SESSIONS"))).2 := by
      unfold loadConfigFromEnv
      simp only []
      split_ifs <;> rfl
    have hR : (loadConfigFromEnv Getenv Atoi TrimSpace).RetryCount
        = (parseSessionEnv (Getenv (str "SESSIONS"))).1 := by
      unfold loadConfigFromEnv
      simp only []
      split_ifs <;> rfl
    refine ⟨hS, ?_, ?_⟩
    · rw [hS, (parseSessionEnv_counts (Getenv (str "SESSIONS"))).1]
    · rw [hR, hS, (parseSessionEnv_counts (Getenv (str "SESSIONS"))).2]
  · intro path c hc
    cases hr : ReadFile path with
    | error err => simp [loadConfigFromYAML, hr] at hc
    | ok data =>
      cases hu : Unmarshal data with
      | error err => simp [loadConfigFromYAML, hr, hu] at hc
      | ok decoded =>
        refine ⟨data, decoded, rfl, hu, ?_⟩
        simp only [loadConfigFromYAML, hr, hu] at hc
        split_ifs at hc <;> cases hc <;> exact ⟨rfl, rfl⟩
  · intro configFile
    cases configFile with
    | none =>
      right
      exact ⟨fun path h => Option.noConfusion h, rfl⟩
    | some p =>
      cases hl : loadConfigFromYAML ReadFile Unmarshal p with
      | ok c =>
        left
        refine ⟨p, rfl, ?_⟩
        simp only [LoadConfig, hl]
      | error err =>
        right
        refine ⟨fun path h => ?_, ?_⟩
        · cases h
          exact ⟨err, hl⟩
        · simp only [LoadConfig, hl]

/-- C6 amended, at the file `config.yaml` holding `yamlDocument`. -/
theorem C6_retry_count_by_source_witness :
    ∃ data decoded, yamlReadFile (str "config.yaml") = Except.ok data
      ∧ yamlUnmarshal data = Except.ok decoded
      ∧ yamlLoaded.RetryCount = decoded.RetryCount ∧ yamlLoaded.Sessions = decoded.Sessions :=
  (C6_retry_count_by_source yamlReadFile yamlUnmarshal sessionsOnlyGetenv atoiOfUnset
    (fun p => p)).2.1 (str "config.yaml") yamlLoaded rfl

/-- The environment with only `SESSIONS=a,b,,c` loads three sessions, retry
count 3 and the default address. -/
theorem loadConfigFromEnv_example :
    (loadConfigFromEnv sessionsOnlyGetenv atoiOfUnset (fun p => p)).Sessions
        = [⟨str "a", []⟩, ⟨str "b", []⟩, ⟨str "c", []⟩]
    ∧ (loadConfigFromEnv sessionsOnlyGetenv atoiOfUnset (fun p => p)).RetryCount = 3
    ∧ (loadConfigFromEnv sessionsOnlyGetenv atoiOfUnset (fun p => p)).Address
        = str "0.0.0.0:8080" := by
  decide

/-- C7. `GetSessionForModel idx` never changes the configuration and never
panics; it returns the session at position `idx` and no error when
`0 ≤ idx < len(Sessions)`, it returns the zero session and an error when the
pool is empty, `idx` is negative or `idx ≥ len(Sessions)`, and so it returns no
error if and only if `0 ≤ idx < len(Sessions)`. -/
theorem C7_get_session (c : Config) (idx : Int) :
    (GetSessionForModel c idx).2 = c
    ∧ (0 ≤ idx ∧ idx < (c.Sessions.length : Int) →
        ∃ session, c.Sessions.get? idx.toNat = some session
          ∧ (GetSessionForModel c idx).1 = some (session, none))
    ∧ (c.Sessions.length = 0 ∨ idx < 0 ∨ idx ≥ (c.Sessions.length : Int) →
        (GetSessionForModel c idx).1
          = some ({ SessionKey := [], OrgID := [] }, some (SessionError.invalidSessionIndex idx)))
    ∧ ((∃ session, (GetSessionForModel c idx).1 = some (session, none))
        ↔ (0 ≤ idx ∧ idx < (c.Sessions.length : Int))) := by
  have hin : 0 ≤ idx ∧ idx < (c.Sessions.length : Int) →
      ∃ session, c.Sessions.get? idx.toNat = some session
        ∧ GetSessionForModel c idx = (some (session, none), c) := by
    rintro ⟨h0, h1⟩
    have hlt : idx.toNat < c.Sessions.length := by omega
    have hcond : ¬ (c.Sessions.length = 0 ∨ idx < 0 ∨ idx ≥ (c.Sessions.length : Int)) := by omega
    refine ⟨c.Sessions.get ⟨idx.toNat, hlt⟩, List.get?_eq_get hlt, ?_⟩
    unfold GetSessionForModel
    rw [if_neg hcond, List.get?_eq_get hlt]
  have hout : c.Sessions.length = 0 ∨ idx < 0 ∨ idx ≥ (c.Sessions.length : Int) →
      GetSessionForModel c idx
        = (some ({ SessionKey := [], OrgID := [] }, some (SessionError.invalidSessionIndex idx)),
            c) := by
    intro hcond
    unfold GetSessionForModel
    rw [if_pos hcond]
  have hcases : (0 ≤ idx ∧ idx < (c.Sessions.length : Int))
      ∨ (c.Sessions.length = 0 ∨ idx < 0 ∨ idx ≥ (c.Sessions.length : Int)) := by omega
  refine ⟨?_, ?_, ?_, ?_⟩
  · rcases hcases with h | h
    · obtain ⟨session, _, e⟩ := hin h
      rw [e]
    · rw [hout h]
  · intro h
    obtain ⟨session, hs, e⟩ := hin h
    exact ⟨session, hs, by rw [e]⟩
  · intro h
    rw [hout h]
  · constructor
    · rintro ⟨session, hs⟩
      rcases hcases with h | h
      · exact h
      · rw [hout h] at hs
        simp at hs
    · intro h
      obtain ⟨session, _, e⟩ := hin h
      exact ⟨session, by rw [e]⟩

/-- C7 at a pool of three sessions and index 1. -/
theorem C7_get_session_witness :
    ∃ session, threeSessions.get? 1 = some session
      ∧ (GetSessionForModel (poolConfig threeSessions) 1).1 = some (session, none) :=
  (C7_get_session (poolConfig threeSessions) 1).2.1 ⟨by decide, by decide⟩

/-- `GetSessionForModel` on a pool of three sessions and on the empty pool. -/
theorem get_session_examples :
    (GetSessionForModel (poolConfig threeSessions) 1).1
        = some (⟨str "sk-two", str "org-2"⟩, none)
    ∧ (GetSessionForModel (poolConfig threeSessions) 3).1
        = some (⟨[], []⟩, some (SessionError.invalidSessionIndex 3))
    ∧ (GetSessionForModel (poolConfig threeSessions) (-1)).1
        = some (⟨[], []⟩, some (SessionError.invalidSessionIndex (-1)))
    ∧ (GetSessionForModel (poolConfig []) 0).1
        = some (⟨[], []⟩, some (SessionError.invalidSessionIndex 0)) := by
  decide

/-- The loop of `SetSessionOrgID` keeps the number of sessions. -/
theorem setOrgIDLoop_length (k o : GoString) (l : List SessionInfo) :
    (setOrgIDLoop k o l).length = l.length := by
  induction l with
  | nil => rfl
  | cons s rest ih =>
    unfold setOrgIDLoop
    split_ifs
    · rfl
    · simp [ih]

/-- The loop of `SetSessionOrgID` keeps every key, in order. -/
theorem setOrgIDLoop_keys (k o : GoString) (l : List SessionInfo) :
    (setOrgIDLoop k o l).map SessionInfo.SessionKey = l.map SessionInfo.SessionKey := by
  induction l with
  | nil => rfl
  | cons s rest ih =>
    unfold setOrgIDLoop
    split_ifs
    · rfl
    · simp [ih]

/-- The loop of `SetSessionOrgID` keeps every session whose key is not `k`. -/
theorem setOrgIDLoop_other (k o : GoString) (l : List SessionInfo) :
    ∀ (i : Nat) (s : SessionInfo), l.get? i = some s → s.SessionKey ≠ k →
      (setOrgIDLoop k o l).get? i = some s := by
  induction l with
  | nil => intro i s h; simp at h
  | cons t rest ih =>
    intro i s h hk
    unfold setOrgIDLoop
    cases i with
    | zero =>
      simp only [List.get?_cons_zero, Option.some.injEq] at h
      subst h
      rw [if_neg hk]
      rfl
    | succ i =>
      simp only [List.get?_cons_succ] at h
      split_ifs
      · simpa using h
      · simpa using ih i s h hk

/-- The loop of `SetSessionOrgID` stores the identifier in the first session
whose key is `k`. -/
theorem setOrgIDLoop_first (k o : GoString) (l : List SessionInfo) :
    ∀ (i : Nat) (s : SessionInfo), l.get? i = some s → s.SessionKey = k →
      (∀ j t, j < i → l.get? j = some t → t.SessionKey ≠ k) →
      (setOrgIDLoop k o l).get? i = some { SessionKey := k, OrgID := o } := by
  induction l with
  | nil => intro i s h; simp at h
  | cons t rest ih =>
    intro i s h hk hfirst
    unfold setOrgIDLoop
    cases i with
    | zero =>
      simp only [List.get?_cons_zero, Option.some.injEq] at h
      subst h
      rw [if_pos hk, List.get?_cons_zero, hk]
    | succ i =>
      simp only [List.get?_cons_succ] at h
      have ht : t.SessionKey ≠ k := hfirst 0 t (Nat.succ_pos i) rfl
      rw [if_neg ht, List.get?_cons_succ]
      exact ih i s h hk (fun j u hj hu => hfirst (j + 1) u (Nat.succ_lt_succ hj) hu)

/-- The loop of `SetSessionOrgID` changes nothing when no session has key `k`. -/
theorem setOrgIDLoop_absent (k o : GoString) (l : List SessionInfo)
    (h : ∀ s ∈ l, s.SessionKey ≠ k) : setOrgIDLoop k o l = l := by
  induction l with
  | nil => rfl
  | cons t rest ih =>
    unfold setOrgIDLoop
    rw [if_neg (h t (List.mem_cons_self _ _)), ih (fun s hs => h s (List.mem_cons_of_mem _ hs))]

/-- C8. `SetSessionOrgID k o` changes only the field `Sessions`; it keeps the
number of sessions and every key in order; it keeps every session whose key is
not `k`; the first session with key `k`, if there is one, has organization
identifier `o` afterwards, and `GetSessionForModel` at its index returns it;
and when no session has key `k` the configuration is unchanged. -/
theorem C8_set_org_id_frame (c : Config) (k o : GoString) :
    SetSessionOrgID c k o = { c with Sessions := (SetSessionOrgID c k o).Sessions }
    ∧ (SetSessionOrgID c k o).Sessions.length = c.Sessions.length
    ∧ (SetSessionOrgID c k o).Sessions.map SessionInfo.SessionKey
        = c.Sessions.map SessionInfo.SessionKey
    ∧ (∀ (i : Nat) (s : SessionInfo), c.Sessions.get? i = some s → s.SessionKey ≠ k →
        (SetSessionOrgID c k o).Sessions.get? i = some s)
    ∧ (∀ (i : Nat) (s : SessionInfo), c.Sessions.get? i = some s → s.SessionKey = k →
        (∀ j t, j < i → c.Sessions.get? j = some t → t.SessionKey ≠ k) →
        (SetSessionOrgID c k o).Sessions.get? i = some { SessionKey := k, OrgID := o }
        ∧ (GetSessionForModel (SetSessionOrgID c k o) (i : Int)).1
            = some ({ SessionKey := k, OrgID := o }, none))
    ∧ ((∀ s ∈ c.Sessions, s.SessionKey ≠ k) → SetSessionOrgID c k o = c) := by
  refine ⟨rfl, setOrgIDLoop_length k o _, setOrgIDLoop_keys k o _,
    setOrgIDLoop_other k o _, ?_, ?_⟩
  · intro i s hs hk hfirst
    have hget : (SetSessionOrgID c k o).Sessions.get? i = some { SessionKey := k, OrgID := o } :=
      setOrgIDLoop_first k o _ i s hs hk hfirst
    refine ⟨hget, ?_⟩
    have hi : i < (SetSessionOrgID c k o).Sessions.length := by
      by_contra hge
      rw [List.get?_eq_none.mpr (not_lt.mp hge)] at hget
      cases hget
    have hcond : ¬ ((SetSessionOrgID c k o).Sessions.length = 0 ∨ (i : Int) < 0
        ∨ (i : Int) ≥ ((SetSessionOrgID c k o).Sessions.length : Int)) := by omega
    unfold GetSessionForModel
    rw [if_neg hcond, Int.toNat_ofNat, hget]
  · intro h
    unfold SetSessionOrgID
    rw [setOrgIDLoop_absent k o _ h]

/-- C8 at a pool of three sessions: the organization identifier of `sk-three`
is stored at index 2. -/
theorem C8_set_org_id_frame_witness :
    (SetSessionOrgID (poolConfig threeSessions) (str "sk-three") (str "org-3")).Sessions.get? 2
        = some { SessionKey := str "sk-three", OrgID := str "org-3" }
    ∧ (GetSessionForModel
          (SetSessionOrgID (poolConfig threeSessions) (str "sk-three") (str "org-3")) (2 : Nat)).1
        = some ({ SessionKey := str "sk-three", OrgID := str "org-3" }, none) :=
  (C8_set_org_id_frame (poolConfig threeSessions) (str "sk-three") (str "org-3")).2.2.2.2.1
    2 ⟨str "sk-three", []⟩ (by decide) (by decide)
    (fun j t hj ht => by
      have hj2 : j = 0 ∨ j = 1 := by omega
      rcases hj2 with rfl | rfl
      · have e : t = ⟨str "sk-one", []⟩ := (Option.some.inj ht).symm
        rw [e]; decide
      · have e : t = ⟨str "sk-two", str "org-2"⟩ := (Option.some.inj ht).symm
        rw [e]; decide)

/-- The session the loop body builds is the key before the first `:` and the
text between the first and the second `:`. -/
theorem sessionOfPair_eq (pair : GoString) : sessionOfPair pair = sessionUpToColon pair := by
  unfold sessionOfPair sessionUpToColon beforeColon afterColon
  rw [Split_eq pair colon]
  cases hd : pair.dropWhile (fun b => decide (b ≠ colon)) with
  | nil => simp
  | cons x r =>
    simp only [List.drop_succ_cons, List.drop_zero]
    rw [Split_eq r colon]
    simp

/-- Every byte of a string without `:` passes the test "is not `:`". -/
theorem not_colon_of_not_mem (key : GoString) (hk : colon ∉ key) :
    ∀ b ∈ key, (fun b => decide (b ≠ colon)) b = true := by
  intro b hb
  exact decide_eq_true (fun h => hk (h ▸ hb))

/-- The text before the first `:` of `key ++ ":" ++ rest` is `key`, when `key`
has no `:`. -/
theorem beforeColon_append (key rest : GoString) (hk : colon ∉ key) :
    beforeColon (key ++ colon :: rest) = key := by
  unfold beforeColon
  rw [List.takeWhile_append_of_pos (not_colon_of_not_mem key hk)]
  simp

/-- The text before the first `:` of an entry without `:` is the entry. -/
theorem beforeColon_self (key : GoString) (hk : colon ∉ key) : beforeColon key = key := by
  unfold beforeColon
  exact List.takeWhile_eq_self_iff.mpr (not_colon_of_not_mem key hk)

/-- The text after the first `:` of `key ++ ":" ++ rest` is `rest`, when `key`
has no `:`. -/
theorem afterColon_append (key rest : GoString) (hk : colon ∉ key) :
    afterColon (key ++ colon :: rest) = rest := by
  unfold afterColon
  rw [List.dropWhile_append_of_pos (not_colon_of_not_mem key hk)]
  simp

/-- Nothing comes after the first `:` of an entry without `:`. -/
theorem afterColon_self (key : GoString) (hk : colon ∉ key) : afterColon key = [] := by
  unfold afterColon
  rw [List.dropWhile_eq_nil_iff.mpr (not_colon_of_not_mem key hk)]
  rfl

/-- C9, as stated, fails on an entry with two colons: for `a:b:c` the code
stores the organization identifier `b`, not the text `b:c` after the first
colon. -/
theorem C9_org_id_stops_at_second_colon :
    (parseSessionEnv (str "a:b:c")).2 = [{ SessionKey := str "a", OrgID := str "b" }]
    ∧ (entries (str "a:b:c")).map sessionUpToEnd
        = [{ SessionKey := str "a", OrgID := str "b:c" }]
    ∧ ¬ ((parseSessionEnv (str "a:b:c")).2 = (entries (str "a:b:c")).map sessionUpToEnd) := by
  decide

/-- C9, amended. The sessions `parseSessionEnv s` returns are, in the order of
`s`, one per non-empty comma-separated entry; the key of an entry is its text
before the first `:` and the organization identifier is the text after the
first `:` up to the next `:` or the end.  So an entry `key` gives `(key, "")`,
an entry `key:org` gives `(key, org)`, and whatever follows a second `:` is
dropped. -/
theorem C9_sessions_of_entries :
    (∀ s, (parseSessionEnv s).2 = (entries s).map sessionUpToColon)
    ∧ (∀ key, colon ∉ key → sessionUpToColon key = { SessionKey := key, OrgID := [] })
    ∧ (∀ key org, colon ∉ key → colon ∉ org →
        sessionUpToColon (key ++ colon :: org) = { SessionKey := key, OrgID := org })
    ∧ (∀ key org rest, colon ∉ key → colon ∉ org →
        sessionUpToColon (key ++ colon :: (org ++ colon :: rest))
          = { SessionKey := key, OrgID := org }) := by
  refine ⟨?_, ?_, ?_, ?_⟩
  · intro s
    rw [parseSessionEnv_eq]
    exact List.map_congr_left (fun e _ => sessionOfPair_eq e)
  · intro key hk
    unfold sessionUpToColon
    rw [beforeColon_self key hk, afterColon_self key hk]
    rfl
  · intro key org hk ho
    unfold sessionUpToColon
    rw [beforeColon_append key org hk, afterColon_append key org hk, beforeColon_self org ho]
  · intro key org rest hk ho
    unfold sessionUpToColon
    rw [beforeColon_append key _ hk, afterColon_append key _ hk, beforeColon_append org rest ho]

/-- C9 amended, at the entry `sk-one:org-1`. -/
theorem C9_sessions_of_entries_witness :
    sessionUpToColon (str "sk-one" ++ colon :: str "org-1")
      = { SessionKey := str "sk-one", OrgID := str "org-1" } :=
  C9_sessions_of_entries.2.2.1 (str "sk-one") (str "org-1") (by decide) (by decide)

/-- The sessions of `sk-one:org-1,,sk-two`, evaluated. -/
theorem parseSessionEnv_example :
    parseSessionEnv (str "sk-one:org-1,,sk-two")
      = (2, [{ SessionKey := str "sk-one", OrgID := str "org-1" },
             { SessionKey := str "sk-two", OrgID := [] }]) := by
  decide

/-- The keys of the pool are the texts before the first `:` of the non-empty
entries, in order. -/
theorem parseSessionEnv_keys (s : GoString) :
    (parseSessionEnv s).2.map SessionInfo.SessionKey = (entries s).map beforeColon := by
  rw [parseSessionEnv_eq]
  simp only [List.map_map]
  exact List.map_congr_left (fun e _ => by rw [Function.comp, sessionOfPair_eq]; rfl)

/-- The text before the first `:` is empty exactly for the empty entry and for
the entries that begin with `:`. -/
theorem beforeColon_eq_nil_iff (e : GoString) :
    beforeColon e = [] ↔ e = [] ∨ e.head? = some colon := by
  unfold beforeColon
  cases e with
  | nil => simp
  | cons c rest =>
    by_cases hc : c = colon
    · simp [hc]
    · simp [hc]

/-- Every entry of `entries s` is non-empty. -/
theorem entries_ne_nil (s : GoString) : ∀ e ∈ entries s, e ≠ [] := by
  intro e he
  unfold entries at he
  simpa using (List.mem_filter.mp he).2

/-- C10, as stated, fails: the entry `:org` gives a session with the empty key,
and the specification `a,a` gives two sessions with the same key. -/
theorem C10_keys_not_validated :
    (∃ session ∈ (parseSessionEnv (str ":org")).2, session.SessionKey = [])
    ∧ ¬ ((parseSessionEnv (str "a,a")).2.map SessionInfo.SessionKey).Nodup := by
  refine ⟨⟨{ SessionKey := [], OrgID := str "org" }, by decide, rfl⟩, by decide⟩

/-- C10, amended. `parseSessionEnv` does not validate keys: the keys of the pool
are, in order, the texts before the first `:` of the non-empty entries of `s`.
So every session has a non-empty key if and only if no non-empty entry begins
with `:`, and no two sessions have the same key if and only if no two non-empty
entries have the same text before the first `:`.  `SetSessionOrgID` keeps the
keys of a pool as they are. -/
theorem C10_keys_of_entries (s : GoString) :
    (parseSessionEnv s).2.map SessionInfo.SessionKey = (entries s).map beforeColon
    ∧ ((∀ session ∈ (parseSessionEnv s).2, session.SessionKey ≠ [])
        ↔ (∀ e ∈ entries s, e.head? ≠ some colon))
    ∧ (((parseSessionEnv s).2.map SessionInfo.SessionKey).Nodup
        ↔ ((entries s).map beforeColon).Nodup)
    ∧ (∀ (c : Config) (k o : GoString),
        (SetSessionOrgID c k o).Sessions.map SessionInfo.SessionKey
          = c.Sessions.map SessionInfo.SessionKey) := by
  refine ⟨parseSessionEnv_keys s, ?_, ?_, fun c k o => setOrgIDLoop_keys k o _⟩
  · have hkeys : (∀ session ∈ (parseSessionEnv s).2, session.SessionKey ≠ [])
        ↔ (∀ key ∈ (parseSessionEnv s).2.map SessionInfo.SessionKey, key ≠ []) := by
      simp [List.mem_map]
    rw [hkeys, parseSessionEnv_keys]
    constructor
    · intro h e he hhead
      have hb : beforeColon e = [] := (beforeColon_eq_nil_iff e).mpr (Or.inr hhead)
      exact h (beforeColon e) (List.mem_map.mpr ⟨e, he, rfl⟩) hb
    · intro h key hkey hnil
      obtain ⟨e, he, rfl⟩ := List.mem_map.mp hkey
      rcases (beforeColon_eq_nil_iff e).mp hnil with h0 | h1
      · exact entries_ne_nil s e he h0
      · exact h e he h1
  · rw [parseSessionEnv_keys]

/-- C10 amended, at `sk-one:org-1,sk-two`: no entry begins with `:`, so every
key is non-empty. -/
theorem C10_keys_of_entries_witness :
    ∀ session ∈ (parseSessionEnv (str "sk-one:org-1,sk-two")).2, session.SessionKey ≠ [] :=
  (C10_keys_of_entries (str "sk-one:org-1,sk-two")).2.1.mpr (by decide)

/-- Running the loop of `SetSessionOrgID` a second time changes nothing. -/
theorem setOrgIDLoop_twice (k o : GoString) (l : List SessionInfo) :
    setOrgIDLoop k o (setOrgIDLoop k o l) = setOrgIDLoop k o l := by
  induction l with
  | nil => rfl
  | cons s rest ih =>
    by_cases hs : s.SessionKey = k
    · have h1 : setOrgIDLoop k o (s :: rest) = { s with OrgID := o } :: rest := by
        rw [setOrgIDLoop, if_pos hs]
      have hs2 : ({ s with OrgID := o } : SessionInfo).SessionKey = k := hs
      rw [h1, setOrgIDLoop, if_pos hs2]
    · have h1 : setOrgIDLoop k o (s :: rest) = s :: setOrgIDLoop k o rest := by
        rw [setOrgIDLoop, if_neg hs]
      rw [h1, setOrgIDLoop, if_neg hs, ih]

/-- C11. For every configuration, key `k` and organization identifier `o`,
calling `SetSessionOrgID k o` twice in a row leaves the configuration in the
state one call leaves it in. -/
theorem C11_set_org_id_idempotent (c : Config) (k o : GoString) :
    SetSessionOrgID (SetSessionOrgID c k o) k o = SetSessionOrgID c k o := by
  unfold SetSessionOrgID
  simp only [setOrgIDLoop_twice]

/-- `SetSessionOrgID` with `org1` on a pool of three sessions, once and twice,
and for a key the pool does not hold. -/
theorem set_org_id_examples :
    (SetSessionOrgID (poolConfig threeSessions) (str "sk-one") (str "org1")).Sessions
        = [⟨str "sk-one", str "org1"⟩, ⟨str "sk-two", str "org-2"⟩, ⟨str "sk-three", []⟩]
    ∧ SetSessionOrgID (SetSessionOrgID (poolConfig threeSessions) (str "sk-one") (str "org1"))
          (str "sk-one") (str "org1")
        = SetSessionOrgID (poolConfig threeSessions) (str "sk-one") (str "org1")
    ∧ SetSessionOrgID (poolConfig threeSessions) (str "sk-none") (str "org1")
        = poolConfig threeSessions := by
  decide

/-- Among the first `K` terms of `c, c+1, ...` reduced modulo `N`, the value `i`
occurs `K / N` times, and once more if its first position is below `K % N`. -/
theorem count_shifted_range (N c K i : Nat) (hN : 0 < N) (hc : c < N) (hi : i < N) :
    ((List.range K).map (fun j => (c + j) % N)).count i
      = K / N + if (i + (N - c)) % N < K % N then 1 else 0 := by
  have hiff : ∀ j : Nat, (c + j) % N = i ↔ j ≡ i + (N - c) [MOD N] := by
    intro j
    have hjN : j + N ≡ j [MOD N] := Nat.add_mod_right j N
    have hiN : i + N ≡ i [MOD N] := Nat.add_mod_right i N
    constructor
    · intro h
      have h1 : c + j ≡ i [MOD N] := by
        unfold Nat.ModEq
        rw [h, Nat.mod_eq_of_lt hi]
      have h2 : c + j + (N - c) ≡ i + (N - c) [MOD N] := h1.add_right (N - c)
      have e : c + j + (N - c) = j + N := by omega
      rw [e] at h2
      exact hjN.symm.trans h2
    · intro h
      have h2 : c + j ≡ c + (i + (N - c)) [MOD N] := h.add_left c
      have e : c + (i + (N - c)) = i + N := by omega
      rw [e] at h2
      have h3 : c + j ≡ i [MOD N] := h2.trans hiN
      unfold Nat.ModEq at h3
      rw [h3, Nat.mod_eq_of_lt hi]
  rw [← Nat.count_modEq_card K hN (i + (N - c)), Nat.count, List.count, List.countP_map]
  apply List.countP_congr
  intro j _
  simp only [Function.comp, beq_iff_eq, decide_eq_true_eq]
  exact hiff j

/-- When `K % N` is positive, `K / N` rounded up is `K / N + 1`. -/
theorem ceil_div_of_pos_mod (K N : Nat) (hN : 0 < N) (hr : 0 < K % N) :
    (K + N - 1) / N = K / N + 1 := by
  have hlt : K % N < N := Nat.mod_lt K hN
  have hK : K + N - 1 = (K % N - 1) + N * (K / N + 1) := by
    have := Nat.div_add_mod K N
    rw [Nat.mul_add, Nat.mul_one]
    omega
  rw [hK, Nat.add_mul_div_left _ _ hN, Nat.div_eq_of_lt (by omega), Nat.zero_add]

/-- C12. On a pool of `N > 0` sessions with the cursor at `c` in `[0, N)`, the
`K` calls of `NextIndex`, taken in the order in which the mutex admits them,
all return; the returned values are `c, c+1, ...` reduced modulo `N`; every
index below `N` is returned `K / N` times or `K / N` rounded up times, so the
numbers of times two indices are returned differ by at most one. -/
theorem C12_round_robin_fairness (cfg : Config) (sr : SessionRagen) (K : Nat)
    (hN : 0 < cfg.Sessions.length)
    (h0 : 0 ≤ sr.Index) (h1 : sr.Index < (cfg.Sessions.length : Int)) :
    ∃ outs sr1,
      callsNextIndex cfg K sr = some (outs, sr1)
      ∧ outs = (List.range K).map
          (fun (j : Nat) => (sr.Index + (j : Int)) % (cfg.Sessions.length : Int))
      ∧ (∀ i : Nat, i < cfg.Sessions.length →
          outs.count (i : Int) = K / cfg.Sessions.length
          ∨ outs.count (i : Int) = (K + cfg.Sessions.length - 1) / cfg.Sessions.length)
      ∧ (∀ i j : Nat, i < cfg.Sessions.length → j < cfg.Sessions.length →
          outs.count (i : Int) ≤ outs.count (j : Int) + 1) := by
  obtain ⟨c, hc⟩ := Int.eq_ofNat_of_zero_le h0
  have hsr : sr = { Index := (c : Int) } := by cases sr; simp_all
  subst hsr
  have hcN : c < cfg.Sessions.length := by
    have h2 : (c : Int) < (cfg.Sessions.length : Int) := h1
    exact_mod_cast h2
  have hcount : ∀ i : Nat, i < cfg.Sessions.length →
      ((List.range K).map
          (fun j => (((c + j) % cfg.Sessions.length : Nat) : Int))).count (i : Int)
        = K / cfg.Sessions.length
          + if (i + (cfg.Sessions.length - c)) % cfg.Sessions.length < K % cfg.Sessions.length
            then 1 else 0 := by
    intro i hi
    have hmap : (List.range K).map (fun j => (((c + j) % cfg.Sessions.length : Nat) : Int))
        = ((List.range K).map (fun j => (c + j) % cfg.Sessions.length)).map Nat.cast := by
      rw [List.map_map]; rfl
    rw [hmap, List.count_map_of_injective _ _ Nat.cast_injective,
      count_shifted_range _ c K i hN hcN hi]
  refine ⟨_, _, callsNextIndex_eq cfg hN K c hcN, ?_, ?_, ?_⟩
  · apply List.map_congr_left
    intro j _
    show (((c + j) % cfg.Sessions.length : Nat) : Int)
      = ((c : Int) + (j : Int)) % (cfg.Sessions.length : Int)
    push_cast
    rfl
  · intro i hi
    rw [hcount i hi]
    split_ifs with h
    · right
      rw [ceil_div_of_pos_mod K _ hN (by omega)]
    · left
      rfl
  · intro i j hi hj
    rw [hcount i hi, hcount j hj]
    split_ifs <;> omega

/-- C12 at a pool of three sessions, the cursor at 1 and seven calls. -/
theorem C12_round_robin_fairness_witness :
    ∃ outs sr1,
      callsNextIndex (poolConfig threeSessions) 7 { Index := 1 } = some (outs, sr1)
      ∧ outs = (List.range 7).map
          (fun (j : Nat) =>
            ((1 : Int) + (j : Int)) % ((poolConfig threeSessions).Sessions.length : Int))
      ∧ (∀ i : Nat, i < (poolConfig threeSessions).Sessions.length →
          outs.count (i : Int) = 7 / (poolConfig threeSessions).Sessions.length
          ∨ outs.count (i : Int)
            = (7 + (poolConfig threeSessions).Sessions.length - 1)
              / (poolConfig threeSessions).Sessions.length)
      ∧ (∀ i j : Nat, i < (poolConfig threeSessions).Sessions.length →
          j < (poolConfig threeSessions).Sessions.length →
          outs.count (i : Int) ≤ outs.count (j : Int) + 1) :=
  C12_round_robin_fairness (poolConfig threeSessions) { Index := 1 } 7
    (by decide) (by decide) (by decide)

/-- Seven calls on three sessions from cursor 1: the returned values and the
cursor afterwards. -/
theorem callsNextIndex_example :
    callsNextIndex (poolConfig threeSessions) 7 { Index := 1 }
      = some ([1, 2, 0, 1, 2, 0, 1], { Index := 2 }) := by
  decide

/-- Inside the bounds `GetSessionForModel` returns the session at the index and
no error. -/
theorem GetSessionForModel_in_range (c : Config) (idx : Int)
    (h0 : 0 ≤ idx) (h1 : idx < (c.Sessions.length : Int)) :
    ∃ session, c.Sessions.get? idx.toNat = some session
      ∧ GetSessionForModel c idx = (some (session, none), c) := by
  have hlt : idx.toNat < c.Sessions.length := by omega
  have hcond : ¬ (c.Sessions.length = 0 ∨ idx < 0 ∨ idx ≥ (c.Sessions.length : Int)) := by omega
  refine ⟨c.Sessions.get ⟨idx.toNat, hlt⟩, List.get?_eq_get hlt, ?_⟩
  unfold GetSessionForModel
  rw [if_neg hcond, List.get?_eq_get hlt]

/-- C13. On a pool of `N > 0` sessions, starting from the cursor 0, any number of
calls of `NextIndex` all return (the modulo never divides by zero), the cursor
afterwards is in `[0, N)`, every returned index is in `[0, N)`, and
`GetSessionForModel` at a returned index, on any configuration with the same
number of sessions, returns a session and no error. -/
theorem C13_cursor_invariant (cfg : Config) (hN : 0 < cfg.Sessions.length) (k : Nat) :
    ∃ outs sr1,
      callsNextIndex cfg k { Index := 0 } = some (outs, sr1)
      ∧ (0 ≤ sr1.Index ∧ sr1.Index < (cfg.Sessions.length : Int))
      ∧ (NextIndex cfg sr1).isSome = true
      ∧ (∀ i ∈ outs,
          (0 ≤ i ∧ i < (cfg.Sessions.length : Int))
          ∧ ∀ cfg2 : Config, cfg2.Sessions.length = cfg.Sessions.length →
              ∃ session, cfg2.Sessions.get? i.toNat = some session
                ∧ (GetSessionForModel cfg2 i).1 = some (session, none)) := by
  have hlt : ∀ m : Nat, ((m % cfg.Sessions.length : Nat) : Int) < (cfg.Sessions.length : Int) :=
    fun m => by exact_mod_cast Nat.mod_lt m hN
  have hne : cfg.Sessions.length ≠ 0 := Nat.pos_iff_ne_zero.mp hN
  refine ⟨_, _, callsNextIndex_eq cfg hN k 0 hN, ⟨Int.natCast_nonneg _, hlt _⟩, ?_, ?_⟩
  · simp [NextIndex, hne]
  · intro i hi
    obtain ⟨j, _, rfl⟩ := List.mem_map.mp hi
    refine ⟨⟨Int.natCast_nonneg _, hlt _⟩, ?_⟩
    intro cfg2 hlen
    obtain ⟨session, hs, e⟩ := GetSessionForModel_in_range cfg2
      (((0 + j) % cfg.Sessions.length : Nat) : Int) (Int.natCast_nonneg _) (by rw [hlen]; exact hlt _)
    exact ⟨session, hs, by rw [e]⟩

/-- C13 at a pool of three sessions and ten calls. -/
theorem C13_cursor_invariant_witness :
    ∃ outs sr1,
      callsNextIndex (poolConfig threeSessions) 10 { Index := 0 } = some (outs, sr1)
      ∧ (0 ≤ sr1.Index ∧ sr1.Index < ((poolConfig threeSessions).Sessions.length : Int))
      ∧ (NextIndex (poolConfig threeSessions) sr1).isSome = true
      ∧ (∀ i ∈ outs,
          (0 ≤ i ∧ i < ((poolConfig threeSessions).Sessions.length : Int))
          ∧ ∀ cfg2 : Config,
              cfg2.Sessions.length = (poolConfig threeSessions).Sessions.length →
              ∃ session, cfg2.Sessions.get? i.toNat = some session
                ∧ (GetSessionForModel cfg2 i).1 = some (session, none)) :=
  C13_cursor_invariant (poolConfig threeSessions) (by decide) 10

/-- On the empty pool `NextIndex` panics. -/
theorem NextIndex_empty_pool (sr : SessionRagen) : NextIndex (poolConfig []) sr = none := rfl

/-- Every byte value is in `allBytes`, once. -/
theorem allBytes_complete : allBytes.Nodup ∧ ∀ b : UInt8, b ∈ allBytes := by
  unfold allBytes
  constructor
  · apply List.Nodup.map_on _ (List.nodup_range 256)
    intro i hi j hj hij
    have h1 : (UInt8.ofNat i).toNat = i := UInt8.toNat_ofNat_of_lt (List.mem_range.mp hi)
    have h2 : (UInt8.ofNat j).toNat = j := UInt8.toNat_ofNat_of_lt (List.mem_range.mp hj)
    rw [← h1, ← h2, hij]
  · intro b
    have hb : b.toNat < 256 := UInt8.toNat_lt_size b
    exact List.mem_map.mpr
      ⟨b.toNat, List.mem_range.mpr hb, UInt8.toNat.inj (UInt8.toNat_ofNat_of_lt hb)⟩

/-- The number of byte values sent to the index `i < n`: `256 / n`, and one more
for the indices below `256 % n`. -/
theorem bytesSentTo_eq (n i : Nat) (hn : 0 < n) (hi : i < n) :
    bytesSentTo n i = 256 / n + if i < 256 % n then 1 else 0 := by
  have hcount := Nat.count_modEq_card 256 hn i
  rw [Nat.mod_eq_of_lt hi] at hcount
  unfold bytesSentTo allBytes
  rw [← hcount, Nat.count, List.countP_map]
  apply List.countP_congr
  intro j hj
  have hj256 : j < 256 := List.mem_range.mp hj
  have hto : (UInt8.ofNat j).toNat = j := UInt8.toNat_ofNat_of_lt hj256
  simp only [Function.comp, proxyIndex, hto, decide_eq_true_eq]
  unfold Nat.ModEq
  rw [Nat.mod_eq_of_lt hi]

/-- C14. For every number `n ≥ 1` of proxies (in particular `n ≤ 256`), the index
`sum[0] % n` of `SelectProxyBySessionKey` receives, at each index below `n`,
`256 / n` or `256 / n` rounded up of the 256 byte values; and every index
receives the same number of byte values if and only if `n` divides 256. -/
theorem C14_index_distribution (n : Nat) (h1 : 1 ≤ n) (h2 : n ≤ 256) :
    (∀ (k : GoString) (P : List GoString), P.length = n →
        SelectProxyBySessionKey k P = P.get? (proxyIndex ((sha256.Sum256 k).at 0) n))
    ∧ (∀ i, i < n → bytesSentTo n i = 256 / n ∨ bytesSentTo n i = (256 + n - 1) / n)
    ∧ ((∀ i j, i < n → j < n → bytesSentTo n i = bytesSentTo n j) ↔ n ∣ 256) := by
  have hn : 0 < n := h1
  refine ⟨?_, ?_, ?_⟩
  · intro k P hP
    have hlen : P.length ≠ 0 := by omega
    unfold SelectProxyBySessionKey proxyIndex
    rw [if_neg hlen, hP]
  · intro i hi
    rw [bytesSentTo_eq n i hn hi]
    split_ifs with h
    · right
      rw [ceil_div_of_pos_mod 256 n hn (by omega)]
    · left
      rfl
  · constructor
    · intro hall
      by_contra hdvd
      have hmod : 256 % n ≠ 0 := fun h => hdvd (Nat.dvd_of_mod_eq_zero h)
      have hlt : 256 % n < n := Nat.mod_lt 256 hn
      have h0 := bytesSentTo_eq n 0 hn hn
      have hl := bytesSentTo_eq n (n - 1) hn (by omega)
      rw [if_pos (by omega)] at h0
      rw [if_neg (by omega)] at hl
      have := hall 0 (n - 1) hn (by omega)
      omega
    · intro hdvd i j hi hj
      have hmod : 256 % n = 0 := Nat.mod_eq_zero_of_dvd hdvd
      rw [bytesSentTo_eq n i hn hi, bytesSentTo_eq n j hn hj, hmod]
      simp

/-- C14 at three proxies: 256 is not a multiple of 3, and the indices 0, 1, 2
receive 86, 85 and 85 byte values. -/
theorem C14_index_distribution_witness :
    (∀ i, i < 3 → bytesSentTo 3 i = 256 / 3 ∨ bytesSentTo 3 i = (256 + 3 - 1) / 3)
    ∧ ((∀ i j, i < 3 → j < 3 → bytesSentTo 3 i = bytesSentTo 3 j) ↔ 3 ∣ 256) :=
  (C14_index_distribution 3 (by decide) (by decide)).2

/-- The numbers of byte values sent to each of three proxies and of four
proxies. -/
theorem bytesSentTo_examples :
    bytesSentTo 3 0 = 86 ∧ bytesSentTo 3 1 = 85 ∧ bytesSentTo 3 2 = 85
    ∧ bytesSentTo 4 0 = 64 ∧ bytesSentTo 4 1 = 64 ∧ bytesSentTo 4 2 = 64 ∧ bytesSentTo 4 3 = 64 := by
  set_option maxRecDepth 100000 in decide

/-- Every string has the empty string as prefix. -/
theorem HasPrefix_nil (s : GoString) : HasPrefix s [] = true := by
  simp [HasPrefix]

/-- The mirror flag and the mirror prefix the environment loader stores. -/
theorem loadConfigFromEnv_mirror (Getenv : GoString → GoString)
    (Atoi : GoString → Except GoString Int) (TrimSpace : GoString → GoString) :
    (loadConfigFromEnv Getenv Atoi TrimSpace).EnableMirrorApi
        = decide (Getenv (str "ENABLE_MIRROR_API") = str "true")
    ∧ (loadConfigFromEnv Getenv Atoi TrimSpace).MirrorApiPrefix
        = Getenv (str "MIRROR_API_PREFIX") := by
  unfold loadConfigFromEnv
  simp only []
  split_ifs <;> exact ⟨rfl, rfl⟩

/-- C15. When mirror mode is enabled and the mirror prefix is the empty string,
`AuthMiddleware` lets every request through on the mirror branch, whatever the
path, the Authorization header and the configured API key; and this is the
configuration `loadConfigFromEnv` produces when `ENABLE_MIRROR_API` is `true`
and `MIRROR_API_PREFIX` is not set. -/
theorem C15_empty_mirror_prefix_allows_all :
    (∀ (cfg : Config) (path header : GoString),
        cfg.EnableMirrorApi = true → cfg.MirrorApiPrefix = [] →
        AuthMiddleware cfg path header = AuthOutcome.next true
        ∧ (AuthMiddleware cfg path header).decision = Decision.Allow)
    ∧ (∀ (Getenv : GoString → GoString) (Atoi : GoString → Except GoString Int)
        (TrimSpace : GoString → GoString) (path header : GoString),
        Getenv (str "ENABLE_MIRROR_API") = str "true" →
        Getenv (str "MIRROR_API_PREFIX") = [] →
        (loadConfigFromEnv Getenv Atoi TrimSpace).EnableMirrorApi = true
        ∧ (loadConfigFromEnv Getenv Atoi TrimSpace).MirrorApiPrefix = []
        ∧ AuthMiddleware (loadConfigFromEnv Getenv Atoi TrimSpace) path header
            = AuthOutcome.next true) := by
  have hgate : ∀ (cfg : Config) (path header : GoString),
      cfg.EnableMirrorApi = true → cfg.MirrorApiPrefix = [] →
      AuthMiddleware cfg path header = AuthOutcome.next true := by
    intro cfg path header hm hp
    unfold AuthMiddleware
    rw [hm, hp, HasPrefix_nil]
    rfl
  refine ⟨fun cfg path header hm hp => ⟨hgate cfg path header hm hp, ?_⟩, ?_⟩
  · rw [hgate cfg path header hm hp]
    rfl
  · intro Getenv Atoi TrimSpace path header he hp
    obtain ⟨h1, h2⟩ := loadConfigFromEnv_mirror Getenv Atoi TrimSpace
    have hm : (loadConfigFromEnv Getenv Atoi TrimSpace).EnableMirrorApi = true := by
      rw [h1, he]; exact decide_eq_true rfl
    have hpre : (loadConfigFromEnv Getenv Atoi TrimSpace).MirrorApiPrefix = [] := by
      rw [h2, hp]
    exact ⟨hm, hpre, hgate _ path header hm hpre⟩

/-- C15 at the environment `APIKEY=secret`, `ENABLE_MIRROR_API=true`: a request
with a wrong key is let through. -/
theorem C15_empty_mirror_prefix_allows_all_witness :
    (loadConfigFromEnv mirrorGetenv atoiOfUnset (fun p => p)).EnableMirrorApi = true
    ∧ (loadConfigFromEnv mirrorGetenv atoiOfUnset (fun p => p)).MirrorApiPrefix = []
    ∧ AuthMiddleware (loadConfigFromEnv mirrorGetenv atoiOfUnset (fun p => p))
        (str "/v1/chat/completions") (str "Bearer wrong") = AuthOutcome.next true :=
  C15_empty_mirror_prefix_allows_all.2 mirrorGetenv atoiOfUnset (fun p => p)
    (str "/v1/chat/completions") (str "Bearer wrong") (by decide) (by decide)

/-- The same request is refused when mirror mode is off. -/
theorem wrong_key_refused_without_mirror :
    AuthMiddleware (gateConfig false (str "secret")) (str "/v1/chat/completions")
        (str "Bearer wrong") = AuthOutcome.abort 401 (str "Invalid API key") := by
  decide

/-- C16. For every session key and every non-empty proxy list `P` (for the empty
list no index is computed), the index `SelectProxyBySessionKey` selects is
smaller than both `len(P)` and 256; so the result is one of the first 256
entries of `P`, and no position from 256 on is ever selected. -/
theorem C16_index_below_256 (k : GoString) (P : List GoString) (hP : P ≠ []) :
    proxyIndex ((sha256.Sum256 k).at 0) P.length < min P.length 256
    ∧ SelectProxyBySessionKey k P = P.get? (proxyIndex ((sha256.Sum256 k).at 0) P.length)
    ∧ (∃ p ∈ P.take 256, SelectProxyBySessionKey k P = some p)
    ∧ (∀ i, 256 ≤ i → proxyIndex ((sha256.Sum256 k).at 0) P.length ≠ i) := by
  have hlen : P.length ≠ 0 := fun h0 => hP (List.length_eq_zero.mp h0)
  have hb : ((sha256.Sum256 k).at 0).toNat < 256 := UInt8.toNat_lt_size _
  have h1 : proxyIndex ((sha256.Sum256 k).at 0) P.length < P.length :=
    Nat.mod_lt _ (Nat.pos_of_ne_zero hlen)
  have h2 : proxyIndex ((sha256.Sum256 k).at 0) P.length < 256 :=
    lt_of_le_of_lt (Nat.mod_le _ _) hb
  have hsel : SelectProxyBySessionKey k P
      = P.get? (proxyIndex ((sha256.Sum256 k).at 0) P.length) := by
    unfold SelectProxyBySessionKey proxyIndex
    rw [if_neg hlen]
  refine ⟨lt_min h1 h2, hsel, ?_, ?_⟩
  · have hget : (P.take 256).get? (proxyIndex ((sha256.Sum256 k).at 0) P.length)
        = some (P.get ⟨_, h1⟩) := by
      rw [List.get?_eq_getElem?, List.getElem?_take_of_lt h2, ← List.get?_eq_getElem?,
        List.get?_eq_get h1]
    refine ⟨P.get ⟨_, h1⟩, List.get?_mem hget, ?_⟩
    rw [hsel, List.get?_eq_get h1]
  · intro i hi
    omega

/-- C16 at a list of 300 proxies and the key `abc`. -/
theorem C16_index_below_256_witness :
    proxyIndex ((sha256.Sum256 (str "abc")).at 0) manyProxies.length < min manyProxies.length 256
    ∧ SelectProxyBySessionKey (str "abc") manyProxies
        = manyProxies.get? (proxyIndex ((sha256.Sum256 (str "abc")).at 0) manyProxies.length)
    ∧ (∃ p ∈ manyProxies.take 256, SelectProxyBySessionKey (str "abc") manyProxies = some p)
    ∧ (∀ i, 256 ≤ i →
        proxyIndex ((sha256.Sum256 (str "abc")).at 0) manyProxies.length ≠ i) :=
  C16_index_below_256 (str "abc") manyProxies
    (fun h => absurd (congrArg List.length h) (by simp [manyProxies]))

end Claude2api
